import Mathlib

/-!
The USB transport bridge of the debug probe (`src/tusb_edpt_handler.c`).

A shallow embedding of the two ring buffers, of the transfer-completion
callback `dap_edpt_xfer_cb`, of the driver life-cycle functions and of the
worker task `dap_thread`, followed by the properties of the specification
that are settled on it.

Conventions of the embedding.

* A `uint32_t` is a natural number, every increment is reduced with `u32`
  (modulo `2 ^ 32`); the explicit casts `(uint16_t)` of the source are `u16`.
* A packet slot is the list of its bytes and the array `data` of a ring is
  the list of its slots.
* The program's global variables and the state of its collaborators (the
  transfers armed at the USB stack, the place at which `dap_thread` stands,
  the log of the calls of `DAP_ExecuteCommand`) form one record, `World`.
* `dap_thread` never returns: it is embedded as a step function that runs
  one basic block of the task, from one evaluation of a loop condition to
  the next one.  Lines 330 to 371 (consume, execute, publish) are one block.
* The diagnostic output (`probe_info`, `render_dap_req`, `render_dap_resp`)
  has no effect on the state and is left out.
-/

namespace Minimaprobe

/-! ## Data model -/

/-- Bytes held by one packet buffer (`uint8_t [DAP_PACKET_SIZE]`). -/
abbrev Packet := List Nat

/-- Value of a `uint32_t` expression: reduction modulo `2 ^ 32`. -/
def u32 (x : Nat) : Nat := x % 4294967296

/-- Value of a cast `(uint16_t) x`. -/
def u16 (x : Nat) : Nat := x % 65536

/-- Type `buffer_t` of the source: a ring of packet slots with its two
cursors and its two sticky flags. -/
structure buffer_t where
  data : List Packet
  wptr : Nat
  rptr : Nat
  wasEmpty : Bool
  wasFull : Bool
deriving DecidableEq, Repr

/-- Compile-time constants and the external command executor.  The header
files that define them are not part of the sources, so they are parameters.
`DAP_ExecuteCommand history request response` stands for the call
`DAP_ExecuteCommand(DAPRequestBuffer, DAPResponseBuffer)`: it yields the new
contents of the response buffer and the returned `uint32_t`; `history` (the
requests executed before) stands for the hidden state of the executor. -/
structure Config where
  DAP_PACKET_COUNT : Nat
  DAP_PACKET_SIZE : Nat
  ID_DAP_QueueCommands : Nat
  ID_DAP_ExecuteCommands : Nat
  TUSB_CLASS_VENDOR_SPECIFIC : Nat
  DAP_INTERFACE_SUBCLASS : Nat
  DAP_INTERFACE_PROTOCOL : Nat
  DAP_ExecuteCommand : List Packet → Packet → Packet → Packet × Nat

/-- The ring a transfer buffer points into. -/
inductive Ring where
  | request
  | response
deriving DecidableEq, Repr

/-- One call `usbd_edpt_xfer(rhport, ep_addr, &ring.data[slot][0], len)`. -/
structure Xfer where
  rhport : Nat
  ep_addr : Nat
  ring : Ring
  slot : Nat
  len : Nat
deriving DecidableEq, Repr

/-- Place at which `dap_thread` stands.
* `loop`: runnable, about to evaluate the condition of line 310;
* `scan n`: runnable, about to evaluate the condition of line 317;
* `check n`: runnable, about to evaluate the condition of line 323;
* `wait n`: suspended in `vTaskSuspend` at line 326;
* `idle`: suspended in `vTaskSuspend` at line 375.
The argument `n` is the local variable `n` of the task. -/
inductive Pc where
  | loop
  | scan (n : Nat)
  | check (n : Nat)
  | wait (n : Nat)
  | idle
deriving DecidableEq, Repr

/-- The global variables of `tusb_edpt_handler.c`, and the state of the
collaborators: `pc` is the place of `dap_thread`, `rx_armed` and `tx_armed`
are the transfers armed on OUT and on IN endpoints that have not completed
yet (oldest first), `xfers` logs every call of `usbd_edpt_xfer`, `opened`
every call of `usbd_edpt_open`, `executed` the request buffer of every call of
`DAP_ExecuteCommand`, and `resume_calls` counts the calls of `vTaskResume`. -/
structure World where
  itf_num : Nat
  _rhport : Nat
  _resp_len : Nat
  _out_ep_addr : Nat
  _in_ep_addr : Nat
  USBRequestBuffer : buffer_t
  USBResponseBuffer : buffer_t
  DAPRequestBuffer : Packet
  DAPResponseBuffer : Packet
  pc : Pc
  rx_armed : List Xfer
  tx_armed : List Xfer
  xfers : List Xfer
  opened : List Nat
  executed : List Packet
  resume_calls : Nat
deriving DecidableEq, Repr

/-- Fields of `tusb_desc_interface_t` that the driver reads. -/
structure tusb_desc_interface_t where
  bInterfaceNumber : Nat
  bNumEndpoints : Nat
  bInterfaceClass : Nat
  bInterfaceSubClass : Nat
  bInterfaceProtocol : Nat
deriving DecidableEq, Repr

/-- Field of `tusb_desc_endpoint_t` that the driver reads. -/
structure tusb_desc_endpoint_t where
  bEndpointAddress : Nat
deriving DecidableEq, Repr

/-! ## Collaborators -/

/-- Direction `TUSB_DIR_OUT` of the USB stack. -/
def TUSB_DIR_OUT : Nat := 0

/-- Direction `TUSB_DIR_IN` of the USB stack. -/
def TUSB_DIR_IN : Nat := 1

/-- Function `tu_edpt_dir` of the USB stack: bit 7 of the endpoint address
tells the direction. -/
def tu_edpt_dir (ep_addr : Nat) : Nat :=
  if ep_addr / 128 % 2 = 1 then TUSB_DIR_IN else TUSB_DIR_OUT

/-- Size in bytes of the packed `tusb_desc_interface_t`. -/
def sizeof_tusb_desc_interface_t : Nat := 9

/-- Size in bytes of the packed `tusb_desc_endpoint_t`. -/
def sizeof_tusb_desc_endpoint_t : Nat := 7

/-- Library function `memcpy(dst, src, n)` on packet buffers. -/
def memcpy (dst src : Packet) (n : Nat) : Packet := src.take n ++ dst.drop n

/-- Slot `x.data[i]`. -/
def slot (x : buffer_t) (i : Nat) : Packet := x.data.getD i []

/-- Store of a whole slot, `x.data[i] = p`. -/
def set_slot (x : buffer_t) (i : Nat) (p : Packet) : buffer_t :=
  { x with data := x.data.set i p }

/-- Call `usbd_edpt_xfer`: the transfer is logged and queued at the USB stack
on the side of its endpoint. -/
def usbd_edpt_xfer (w : World) (rhport ep_addr : Nat) (ring : Ring) (i len : Nat) : World :=
  if tu_edpt_dir ep_addr = TUSB_DIR_IN then
    { w with xfers := w.xfers ++ [⟨rhport, ep_addr, ring, i, len⟩],
             tx_armed := w.tx_armed ++ [⟨rhport, ep_addr, ring, i, len⟩] }
  else
    { w with xfers := w.xfers ++ [⟨rhport, ep_addr, ring, i, len⟩],
             rx_armed := w.rx_armed ++ [⟨rhport, ep_addr, ring, i, len⟩] }

/-- Call `usbd_edpt_open`, logged. -/
def usbd_edpt_open (w : World) (edpt_desc : tusb_desc_endpoint_t) : World :=
  { w with opened := w.opened ++ [edpt_desc.bEndpointAddress] }

/-- Call `vTaskResume(dap_taskhandle)`: a suspended task becomes runnable at
the statement that follows its `vTaskSuspend`; a runnable task is not
affected. -/
def vTaskResume (w : World) : World :=
  { w with resume_calls := w.resume_calls + 1,
           pc := match w.pc with
             | Pc.idle => Pc.loop
             | Pc.wait n => Pc.check n
             | p => p }

/-! ## The ring buffer (lines 24 to 38) -/

/-- Macro `WR_IDX`. -/
def WR_IDX (cfg : Config) (x : buffer_t) : Nat := x.wptr % cfg.DAP_PACKET_COUNT

/-- Macro `RD_IDX`. -/
def RD_IDX (cfg : Config) (x : buffer_t) : Nat := x.rptr % cfg.DAP_PACKET_COUNT

/-- Function `buffer_full`. -/
def buffer_full (cfg : Config) (buffer : buffer_t) : Bool :=
  u32 (buffer.wptr + 1) % cfg.DAP_PACKET_COUNT == buffer.rptr

/-- Function `buffer_empty`. -/
def buffer_empty (buffer : buffer_t) : Bool :=
  buffer.wptr == buffer.rptr

/-! ## Driver life cycle (lines 40 to 132) -/

/-- Function `dap_edpt_reset`. -/
def dap_edpt_reset (w : World) : World :=
  { w with itf_num := 0 }

/-- Function `dap_edpt_open`; `edpts` are the endpoint descriptors that follow
the interface descriptor.  The result is the new state and the returned
`uint16_t`. -/
def dap_edpt_open (cfg : Config) (w : World) (rhport : Nat)
    (itf_desc : tusb_desc_interface_t) (edpts : List tusb_desc_endpoint_t)
    (max_len : Nat) : World × Nat :=
  if cfg.TUSB_CLASS_VENDOR_SPECIFIC = itf_desc.bInterfaceClass ∧
      cfg.DAP_INTERFACE_SUBCLASS = itf_desc.bInterfaceSubClass ∧
      cfg.DAP_INTERFACE_PROTOCOL = itf_desc.bInterfaceProtocol then
    let w1 : World :=
      { w with
        USBResponseBuffer :=
          { w.USBResponseBuffer with wptr := 0, rptr := 0, wasFull := false, wasEmpty := true },
        USBRequestBuffer :=
          { w.USBRequestBuffer with wptr := 0, rptr := 0, wasFull := false, wasEmpty := true } }
    let drv_len := u16 (sizeof_tusb_desc_interface_t +
      itf_desc.bNumEndpoints * sizeof_tusb_desc_endpoint_t)
    if max_len ≥ drv_len then
      let w2 : World := { w1 with itf_num := itf_desc.bInterfaceNumber }
      let edpt_out := edpts.getD 0 ⟨0⟩
      let w3 : World := { w2 with _out_ep_addr := edpt_out.bEndpointAddress }
      let w4 := usbd_edpt_open w3 edpt_out
      let w5 := usbd_edpt_xfer w4 rhport edpt_out.bEndpointAddress Ring.request
        (WR_IDX cfg w4.USBRequestBuffer) cfg.DAP_PACKET_SIZE
      let edpt_in := edpts.getD 1 ⟨0⟩
      let w6 : World := { w5 with _in_ep_addr := edpt_in.bEndpointAddress }
      (usbd_edpt_open w6 edpt_in, drv_len)
    else (w1, 0)
  else (w, 0)

/-- Function `dap_edpt_control_xfer_cb`. -/
def dap_edpt_control_xfer_cb (w : World) : World × Bool := (w, false)

/-! ## The completion callback (lines 135 to 186) -/

/-- Function `dap_edpt_xfer_cb`: the new state and the returned `bool`.  The
argument `result` of the source is not read by the function and is left out. -/
def dap_edpt_xfer_cb (cfg : Config) (w : World) (rhport ep_addr : Nat)
    (xferred_bytes : Nat) : World × Bool :=
  let ep_dir := tu_edpt_dir ep_addr
  if ep_dir = TUSB_DIR_IN then
    if 0 ≤ xferred_bytes ∧ xferred_bytes ≤ cfg.DAP_PACKET_SIZE then
      let w1 : World :=
        { w with USBResponseBuffer :=
            { w.USBResponseBuffer with rptr := u32 (w.USBResponseBuffer.rptr + 1) } }
      let w2 : World :=
        if !w1.USBResponseBuffer.wasEmpty then
          let w3 := usbd_edpt_xfer w1 rhport ep_addr Ring.response
            (RD_IDX cfg w1.USBResponseBuffer) (u16 w1._resp_len)
          { w3 with USBResponseBuffer :=
              { w3.USBResponseBuffer with
                wasEmpty := u32 (w3.USBResponseBuffer.rptr + 1) == w3.USBResponseBuffer.wptr } }
        else w1
      (vTaskResume w2, true)
    else (w, false)
  else if ep_dir = TUSB_DIR_OUT then
    if 0 ≤ xferred_bytes ∧ xferred_bytes ≤ cfg.DAP_PACKET_SIZE then
      let w2 : World :=
        if !buffer_full cfg w.USBRequestBuffer then
          let w1 : World :=
            { w with USBRequestBuffer :=
                { w.USBRequestBuffer with wptr := u32 (w.USBRequestBuffer.wptr + 1) } }
          let w3 := usbd_edpt_xfer w1 rhport ep_addr Ring.request
            (WR_IDX cfg w1.USBRequestBuffer) cfg.DAP_PACKET_SIZE
          { w3 with USBRequestBuffer := { w3.USBRequestBuffer with wasFull := false } }
        else
          { w with USBRequestBuffer := { w.USBRequestBuffer with wasFull := true } }
      (vTaskResume w2, true)
    else (w, false)
  else (w, false)

/-! ## The worker task (lines 305 to 379) -/

/-- Lines 330 to 344 of `dap_thread`: the packet at the read cursor is copied
into `DAPRequestBuffer`, the read cursor advances, and a receive that was held
back because the ring was full is resumed. -/
def dap_thread_consume (cfg : Config) (w : World) : World :=
  let request := memcpy w.DAPRequestBuffer
    (slot w.USBRequestBuffer (RD_IDX cfg w.USBRequestBuffer)) cfg.DAP_PACKET_SIZE
  let w1 : World := { w with DAPRequestBuffer := request }
  let w2 : World :=
    { w1 with USBRequestBuffer :=
        { w1.USBRequestBuffer with rptr := u32 (w1.USBRequestBuffer.rptr + 1) } }
  if w2.USBRequestBuffer.wasFull then
    let w3 : World :=
      { w2 with USBRequestBuffer :=
          { w2.USBRequestBuffer with wptr := u32 (w2.USBRequestBuffer.wptr + 1) } }
    let w4 := usbd_edpt_xfer w3 w3._rhport w3._out_ep_addr Ring.request
      (WR_IDX cfg w3.USBRequestBuffer) cfg.DAP_PACKET_SIZE
    { w4 with USBRequestBuffer := { w4.USBRequestBuffer with wasFull := false } }
  else w2

/-- Line 347 of `dap_thread`: the call of the command executor. -/
def dap_thread_execute (cfg : Config) (w : World) : World :=
  let r := cfg.DAP_ExecuteCommand w.executed w.DAPRequestBuffer w.DAPResponseBuffer
  { w with executed := w.executed ++ [w.DAPRequestBuffer],
           DAPResponseBuffer := r.1,
           _resp_len := u32 r.2 }

/-- Lines 355 to 371 of `dap_thread`: the response is published into the
response ring. -/
def dap_thread_publish (cfg : Config) (w : World) : World :=
  if buffer_empty w.USBResponseBuffer then
    let response := memcpy (slot w.USBResponseBuffer (WR_IDX cfg w.USBResponseBuffer))
      w.DAPResponseBuffer (u16 w._resp_len)
    let w1 : World :=
      { w with USBResponseBuffer :=
                 set_slot w.USBResponseBuffer (WR_IDX cfg w.USBResponseBuffer) response }
    let w2 : World :=
      { w1 with USBResponseBuffer :=
          { w1.USBResponseBuffer with wptr := u32 (w1.USBResponseBuffer.wptr + 1) } }
    usbd_edpt_xfer w2 w2._rhport w2._in_ep_addr Ring.response
      (RD_IDX cfg w2.USBResponseBuffer) (u16 w2._resp_len)
  else
    let response := memcpy (slot w.USBResponseBuffer (WR_IDX cfg w.USBResponseBuffer))
      w.DAPResponseBuffer (u16 w._resp_len)
    let w1 : World :=
      { w with USBResponseBuffer :=
                 set_slot w.USBResponseBuffer (WR_IDX cfg w.USBResponseBuffer) response }
    let w2 : World :=
      { w1 with USBResponseBuffer :=
          { w1.USBResponseBuffer with wptr := u32 (w1.USBResponseBuffer.wptr + 1) } }
    { w2 with USBResponseBuffer := { w2.USBResponseBuffer with wasEmpty := false } }

/-- One basic block of `dap_thread`, from the place `w.pc`.  A suspended task
does not move.  The test of a loop condition and the `vTaskSuspend` that
follows it (lines 310 and 375, lines 323 and 326) are one block; a completion
callback that runs between the two in the source finds the task running, so
that its `vTaskResume` has no effect: that case is `missed_wakeup`. -/
def dap_thread_step (cfg : Config) (w : World) : World :=
  match w.pc with
  | Pc.loop =>
    if w.USBRequestBuffer.rptr ≠ w.USBRequestBuffer.wptr then
      { w with pc := Pc.scan w.USBRequestBuffer.rptr }
    else
      { w with pc := Pc.idle }
  | Pc.scan n =>
    if (slot w.USBRequestBuffer (n % cfg.DAP_PACKET_COUNT)).getD 0 0
        = cfg.ID_DAP_QueueCommands then
      let relabelled := (slot w.USBRequestBuffer (n % cfg.DAP_PACKET_COUNT)).set 0
        cfg.ID_DAP_ExecuteCommands
      { w with
        USBRequestBuffer := set_slot w.USBRequestBuffer (n % cfg.DAP_PACKET_COUNT) relabelled,
        pc := Pc.check (u32 (n + 1)) }
    else
      let w1 := dap_thread_publish cfg (dap_thread_execute cfg (dap_thread_consume cfg w))
      { w1 with pc := Pc.loop }
  | Pc.check n =>
    if n = w.USBRequestBuffer.wptr then { w with pc := Pc.wait n }
    else { w with pc := Pc.scan n }
  | Pc.wait _ => w
  | Pc.idle => w

/-- Whether the task is suspended. -/
def Pc.suspended : Pc → Bool
  | Pc.wait _ => true
  | Pc.idle => true
  | _ => false

/-- The task runs, basic block after basic block, until it suspends itself
(at most `fuel` blocks). -/
def dap_thread_run (cfg : Config) : Nat → World → World
  | 0, w => w
  | fuel + 1, w =>
    if w.pc.suspended then w else dap_thread_run cfg fuel (dap_thread_step cfg w)

/-! ## The system: completions, wake-ups and task steps -/

/-- What can happen to the system.
* `out payload n`: the oldest receive transfer completes, the stack has
  stored the first `n` bytes of `payload` into its buffer (at most the length
  the transfer was armed with) and calls `dap_edpt_xfer_cb` with `n`;
* `inn n`: the oldest outbound transfer completes and the stack calls
  `dap_edpt_xfer_cb`;
* `wake`: `vTaskResume(dap_taskhandle)` is called from elsewhere;
* `thread`: the runnable `dap_thread` executes one basic block. -/
inductive Event where
  | out (payload : Packet) (xferred_bytes : Nat)
  | inn (xferred_bytes : Nat)
  | wake
  | thread
deriving DecidableEq, Repr

/-- The USB stack stores the received bytes into the buffer of a transfer,
never more of them than the length the transfer was armed with. -/
def hw_store (w : World) (x : Xfer) (payload : Packet) (n : Nat) : World :=
  match x.ring with
  | Ring.request =>
    let received := memcpy (slot w.USBRequestBuffer x.slot) payload (min n x.len)
    { w with USBRequestBuffer := set_slot w.USBRequestBuffer x.slot received }
  | Ring.response =>
    let received := memcpy (slot w.USBResponseBuffer x.slot) payload (min n x.len)
    { w with USBResponseBuffer := set_slot w.USBResponseBuffer x.slot received }

/-- One event; `none` when it cannot happen (no transfer is armed on that
side, or the task is suspended). -/
def step (cfg : Config) (w : World) : Event → Option World
  | Event.out payload n =>
    match w.rx_armed with
    | [] => none
    | x :: rest =>
      some (dap_edpt_xfer_cb cfg (hw_store { w with rx_armed := rest } x payload n)
        x.rhport x.ep_addr n).1
  | Event.inn n =>
    match w.tx_armed with
    | [] => none
    | x :: rest =>
      some (dap_edpt_xfer_cb cfg { w with tx_armed := rest } x.rhport x.ep_addr n).1
  | Event.wake => some (vTaskResume w)
  | Event.thread => if w.pc.suspended then none else some (dap_thread_step cfg w)

/-- A sequence of events. -/
def run (cfg : Config) : World → List Event → Option World
  | w, [] => some w
  | w, e :: es =>
    match step cfg w e with
    | none => none
    | some w1 => run cfg w1 es

/-- State of the program when it starts: the static variables are zero and
`dap_thread` is at its first statement. -/
def boot (cfg : Config) : World :=
  { itf_num := 0, _rhport := 0, _resp_len := 0, _out_ep_addr := 0, _in_ep_addr := 0,
    USBRequestBuffer :=
      { data := List.replicate cfg.DAP_PACKET_COUNT (List.replicate cfg.DAP_PACKET_SIZE 0),
        wptr := 0, rptr := 0, wasEmpty := false, wasFull := false },
    USBResponseBuffer :=
      { data := List.replicate cfg.DAP_PACKET_COUNT (List.replicate cfg.DAP_PACKET_SIZE 0),
        wptr := 0, rptr := 0, wasEmpty := false, wasFull := false },
    DAPRequestBuffer := List.replicate cfg.DAP_PACKET_SIZE 0,
    DAPResponseBuffer := List.replicate cfg.DAP_PACKET_SIZE 0,
    pc := Pc.loop, rx_armed := [], tx_armed := [], xfers := [], opened := [],
    executed := [], resume_calls := 0 }

/-- One wake-up of the suspended task, after which it runs until it suspends
itself again (at most `fuel` basic blocks). -/
def wake_and_run (cfg : Config) (fuel : Nat) (w : World) : World :=
  dap_thread_run cfg fuel (vTaskResume w)

/-- Conditions under which `dap_edpt_open` is called in the properties below:
the descriptor is accepted, its first endpoint is an OUT endpoint and its
second one an IN endpoint, no transfer is armed yet, `dap_thread` is not in
the middle of a batch scan, and the buffers have their declared sizes. -/
def OpenOk (cfg : Config) (w0 : World) (itf_desc : tusb_desc_interface_t)
    (edpts : List tusb_desc_endpoint_t) (max_len : Nat) : Prop :=
  cfg.TUSB_CLASS_VENDOR_SPECIFIC = itf_desc.bInterfaceClass ∧
  cfg.DAP_INTERFACE_SUBCLASS = itf_desc.bInterfaceSubClass ∧
  cfg.DAP_INTERFACE_PROTOCOL = itf_desc.bInterfaceProtocol ∧
  max_len ≥ u16 (sizeof_tusb_desc_interface_t +
    itf_desc.bNumEndpoints * sizeof_tusb_desc_endpoint_t) ∧
  tu_edpt_dir (edpts.getD 0 ⟨0⟩).bEndpointAddress = TUSB_DIR_OUT ∧
  tu_edpt_dir (edpts.getD 1 ⟨0⟩).bEndpointAddress = TUSB_DIR_IN ∧
  w0.rx_armed = [] ∧ w0.tx_armed = [] ∧
  (w0.pc = Pc.loop ∨ w0.pc = Pc.idle) ∧
  w0.USBRequestBuffer.data.length = cfg.DAP_PACKET_COUNT ∧
  (∀ p ∈ w0.USBRequestBuffer.data, p.length = cfg.DAP_PACKET_SIZE) ∧
  w0.DAPRequestBuffer.length = cfg.DAP_PACKET_SIZE

/-! ## Batches of queued commands: the words of the batch property -/

/-- Packet `i` of a batch as the executor has to receive it: a queued packet
with byte 0 replaced by `ID_DAP_ExecuteCommands` and all other bytes
unchanged, the terminating packet `ps k` unchanged. -/
def relabelled (cfg : Config) (ps : Nat → Packet) (k i : Nat) : Packet :=
  if i < k then (ps i).set 0 cfg.ID_DAP_ExecuteCommands else ps i

/-- A ring is in its initial state: both cursors are zero, `wasFull` is false
and `wasEmpty` is true. -/
def RingInit (b : buffer_t) : Prop :=
  b.wptr = 0 ∧ b.rptr = 0 ∧ b.wasFull = false ∧ b.wasEmpty = true

/-! ## Reachable states: the words of the invariants -/

/-- Whether an event is not an OUT completion that reports more than
`DAP_PACKET_SIZE` bytes. -/
def valid_out (cfg : Config) : Event → Bool
  | Event.out _ n => decide (n ≤ cfg.DAP_PACKET_SIZE)
  | _ => true

/-- Whether an event is not an IN completion that reports more than
`DAP_PACKET_SIZE` bytes. -/
def valid_in (cfg : Config) : Event → Bool
  | Event.inn n => decide (n ≤ cfg.DAP_PACKET_SIZE)
  | _ => true

/-- Every OUT completion of the schedule reports at most `DAP_PACKET_SIZE`
bytes. -/
def ValidOut (cfg : Config) (evs : List Event) : Prop :=
  ∀ e ∈ evs, valid_out cfg e = true

/-- Every IN completion of the schedule reports at most `DAP_PACKET_SIZE`
bytes. -/
def ValidIn (cfg : Config) (evs : List Event) : Prop :=
  ∀ e ∈ evs, valid_in cfg e = true

/-- Whether an event is an IN completion that `dap_edpt_xfer_cb` accepts. -/
def is_completion (cfg : Config) : Event → Bool
  | Event.inn n => decide (n ≤ cfg.DAP_PACKET_SIZE)
  | _ => false

/-- Number of IN completions of a schedule that `dap_edpt_xfer_cb` accepts:
each of them retires one response. -/
def completions (cfg : Config) (evs : List Event) : Nat :=
  evs.countP (is_completion cfg)

/-- At every moment of the schedule `evs` from the state `w0`, fewer than
`bound` responses are pending: the responses published since `w0` (one for
each call of the executor) minus the responses retired. -/
def PendingBelow (cfg : Config) (w0 : World) (evs : List Event) (bound : Nat) : Prop :=
  ∀ i w, run cfg w0 (evs.take i) = some w →
    w.executed.length < w0.executed.length + completions cfg (evs.take i) + bound

/-- The endpoints have the directions their names say, and every armed
transfer sits at the side of the stack its endpoint belongs to. -/
structure DirInv (w : World) : Prop where
  ep_out : tu_edpt_dir w._out_ep_addr = TUSB_DIR_OUT
  ep_in : tu_edpt_dir w._in_ep_addr = TUSB_DIR_IN
  rx_out : ∀ x ∈ w.rx_armed, tu_edpt_dir x.ep_addr = TUSB_DIR_OUT
  tx_in : ∀ x ∈ w.tx_armed, tu_edpt_dir x.ep_addr = TUSB_DIR_IN

/-- Invariant of the receive side: while `wasFull` is false exactly one
receive is armed, for the slot at the write cursor; while `wasFull` is true
none is armed and the ring tests full. -/
structure ReqInv (cfg : Config) (w : World) : Prop where
  armed : w.USBRequestBuffer.wasFull = false →
    ∃ rh, w.rx_armed = [⟨rh, w._out_ep_addr, Ring.request,
      w.USBRequestBuffer.wptr % cfg.DAP_PACKET_COUNT, cfg.DAP_PACKET_SIZE⟩]
  held : w.USBRequestBuffer.wasFull = true →
    w.rx_armed = [] ∧ buffer_full cfg w.USBRequestBuffer = true

/-- Invariant of the response side; `e0` is the number of calls of the
executor before the rings were initialised and `c` the number of responses
retired since.  With `p` the number of pending responses: the write cursor is
`p` ahead of the read cursor, `wasEmpty` tells whether `p <= 1`, at most one
outbound transfer is in flight and none when `p = 0`, and, as long as every IN
completion is accepted (`strict`), exactly one is in flight when `0 < p`, for
the slot at the read cursor. -/
structure RespInv (cfg : Config) (strict : Prop) (e0 c : Nat) (w : World) : Prop where
  retired : e0 + c ≤ w.executed.length
  below : w.executed.length - (e0 + c) < 4294967296
  rptr_lt : w.USBResponseBuffer.rptr < 4294967296
  ahead : w.USBResponseBuffer.wptr
    = u32 (w.USBResponseBuffer.rptr + (w.executed.length - (e0 + c)))
  flag : w.USBResponseBuffer.wasEmpty = decide (w.executed.length - (e0 + c) ≤ 1)
  single : w.tx_armed.length ≤ 1
  idle : w.executed.length = e0 + c → w.tx_armed = []
  flight : strict → e0 + c < w.executed.length →
    ∃ rh len, w.tx_armed = [⟨rh, w._in_ep_addr, Ring.response,
      w.USBResponseBuffer.rptr % cfg.DAP_PACKET_COUNT, len⟩]

/-! ## A batch that fills the ring: the words of the stall property -/

/-- The packets `ps 0, ..., ps (DAP_PACKET_COUNT - 1)` arrive one after the
other, each in a completion of `DAP_PACKET_SIZE` bytes; then `dap_thread` runs
`2 * (DAP_PACKET_COUNT - 1) + 1` basic blocks. -/
def stall_schedule (cfg : Config) (ps : Nat → Packet) : List Event :=
  (List.range cfg.DAP_PACKET_COUNT).map (fun i => Event.out (ps i) cfg.DAP_PACKET_SIZE) ++
    List.replicate (2 * (cfg.DAP_PACKET_COUNT - 1) + 1) Event.thread

/-- State of the request ring while the batch of `stall_schedule` arrives
(`j` packets committed) and is scanned (`m` packets relabelled). -/
structure FillInv (cfg : Config) (ps : Nat → Packet) (e0 : List Packet) (j m : Nat)
    (w : World) : Prop where
  rptr : w.USBRequestBuffer.rptr = 0
  wptr : w.USBRequestBuffer.wptr = j
  slots : w.USBRequestBuffer.data.length = cfg.DAP_PACKET_COUNT
  slot_len : ∀ i, i < cfg.DAP_PACKET_COUNT →
    (slot w.USBRequestBuffer i).length = cfg.DAP_PACKET_SIZE
  contents : ∀ i, i < j →
    slot w.USBRequestBuffer i =
      if i < m then (ps i).set 0 cfg.ID_DAP_ExecuteCommands else ps i
  tx : w.tx_armed = []
  log : w.executed = e0

/-! ## A concrete probe, for the examples

Four slots of 64 bytes, the opcodes of CMSIS-DAP, and an executor that answers
a request with its first `request[1]` bytes. -/

/-- Configuration of the examples. -/
def cfg4 : Config :=
  { DAP_PACKET_COUNT := 4, DAP_PACKET_SIZE := 64,
    ID_DAP_QueueCommands := 126, ID_DAP_ExecuteCommands := 127,
    TUSB_CLASS_VENDOR_SPECIFIC := 255, DAP_INTERFACE_SUBCLASS := 0,
    DAP_INTERFACE_PROTOCOL := 0,
    DAP_ExecuteCommand := fun _ request response =>
      (memcpy response request (request.getD 1 0), request.getD 1 0) }

/-- Interface descriptor of the examples: vendor class, two endpoints. -/
def itf4 : tusb_desc_interface_t :=
  { bInterfaceNumber := 0, bNumEndpoints := 2, bInterfaceClass := 255,
    bInterfaceSubClass := 0, bInterfaceProtocol := 0 }

/-- Endpoint descriptors of the examples: OUT endpoint 0x04, IN endpoint 0x85. -/
def edpts4 : List tusb_desc_endpoint_t := [⟨4⟩, ⟨133⟩]

/-- State left by `dap_edpt_open` on the freshly started program. -/
def opened4 : World := (dap_edpt_open cfg4 (boot cfg4) 0 itf4 edpts4 23).1

/-- Packet number `i` of the FIFO test: 64 bytes, all equal to `i`. -/
def pkt (i : Nat) : Packet := List.replicate 64 i

/-- A request with the given opcode and second byte, padded with zeros. -/
def cmd (opcode arg : Nat) : Packet := opcode :: arg :: List.replicate 62 0

/-- Three basic blocks of `dap_thread`: with one plain packet pending they
are one whole iteration (lines 310, 317, 330 to 371) and the return to the
idle point (lines 310, 375). -/
def drain_one : List Event := [Event.thread, Event.thread, Event.thread]

/-- Nine packets: the first four are each drained as soon as they arrive,
the next five arrive in a burst before the task runs again. -/
def burst_schedule : List Event :=
  [Event.out (pkt 0) 64] ++ drain_one ++ [Event.out (pkt 1) 64] ++ drain_one ++
  [Event.out (pkt 2) 64] ++ drain_one ++ [Event.out (pkt 3) 64] ++ drain_one ++
  [Event.out (pkt 4) 64, Event.out (pkt 5) 64, Event.out (pkt 6) 64,
   Event.out (pkt 7) 64, Event.out (pkt 8) 64]

/-- Three requests whose responses have 4, 2 and 6 bytes arrive and are all
executed before the first response transfer completes; then that transfer
completes. -/
def three_responses_schedule : List Event :=
  [Event.out (cmd 0 4) 64, Event.out (cmd 2 2) 64, Event.out (cmd 5 6) 64] ++
  List.replicate 7 Event.thread ++ [Event.inn 4]

/-- State of the examples in which one packet has been received and executed
and the task is back at its idle point. -/
def idle4 : World :=
  (run cfg4 opened4 ([Event.out (pkt 0) 64] ++ drain_one)).getD opened4

/-- A request arrives and is executed, its response transfer completes with
`n` bytes, and the task returns to its idle point. -/
def round_trip (p : Packet) (n : Nat) : List Event :=
  [Event.out p 64, Event.thread, Event.thread, Event.inn n, Event.thread]

/-- Four round trips move both cursors of the request ring to 4.  Then a
`QueueCommands` packet arrives and is relabelled by the scan, the task waits
for the rest of the batch, and four more packets arrive, the last of them a
`QueueCommands` packet; the task then executes the packet at the read
cursor. -/
def raw_queue_schedule : List Event :=
  round_trip (cmd 0 1) 1 ++ round_trip (cmd 0 2) 2 ++ round_trip (cmd 0 3) 3 ++
  round_trip (cmd 0 4) 4 ++
  [Event.out (cmd 126 5) 64, Event.thread, Event.thread, Event.thread,
   Event.out (cmd 2 6) 64, Event.out (cmd 0 7) 64, Event.out (cmd 0 8) 64,
   Event.out (cmd 126 9) 64, Event.thread, Event.thread]

/-- Five requests arrive and are executed one after the other, each
answered with two bytes, while the transfer of the first response does not
complete. -/
def lagging_schedule : List Event :=
  [Event.out (cmd 0 2) 64] ++ drain_one ++ [Event.out (cmd 1 2) 64] ++ drain_one ++
  [Event.out (cmd 2 2) 64] ++ drain_one ++ [Event.out (cmd 3 2) 64] ++ drain_one ++
  [Event.out (cmd 4 2) 64] ++ drain_one

/-- The batch that fills the ring of the examples: three `QueueCommands`
packets and a `Connect` packet. -/
def full_batch4 (i : Nat) : Packet := if i < 3 then cmd 126 i else cmd 2 3

/-- State of the examples after `stall_schedule`. -/
def stalled4 : World :=
  (run cfg4 opened4 (stall_schedule cfg4 full_batch4)).getD opened4

/-- State of the examples after `three_responses_schedule`: three responses
published, one retired. -/
def pending_world : World := (run cfg4 opened4 three_responses_schedule).getD opened4

/-- Interface descriptor of another class (mass storage). -/
def itf_storage4 : tusb_desc_interface_t :=
  { bInterfaceNumber := 1, bNumEndpoints := 2, bInterfaceClass := 8,
    bInterfaceSubClass := 6, bInterfaceProtocol := 80 }

/-- A ring whose cursors have passed `DAP_PACKET_COUNT` and that holds three
packets. -/
def ring_7_4 : buffer_t :=
  { data := List.replicate 4 (pkt 0), wptr := 7, rptr := 4, wasEmpty := false, wasFull := false }

theorem tu_edpt_dir_cases (ep_addr : Nat) :
    tu_edpt_dir ep_addr = TUSB_DIR_IN ∨ tu_edpt_dir ep_addr = TUSB_DIR_OUT := by
  unfold tu_edpt_dir
  split
  · exact Or.inl rfl
  · exact Or.inr rfl

theorem TUSB_DIR_OUT_ne_IN : TUSB_DIR_OUT ≠ TUSB_DIR_IN := by decide

theorem u32_succ_ne (x : Nat) : u32 (x + 1) ≠ x := by
  unfold u32
  omega

theorem u32_small (x : Nat) (h : x < 4294967296) : u32 x = x := by
  unfold u32
  omega

theorem getD_set_self (l : List Packet) (i : Nat) (p : Packet) (h : i < l.length) :
    (l.set i p).getD i [] = p := by
  simp [List.getD_eq_getElem?_getD, h]

theorem getD_set_ne (l : List Packet) (i j : Nat) (p : Packet) (h : i ≠ j) :
    (l.set i p).getD j [] = l.getD j [] := by
  simp [List.getD_eq_getElem?_getD, List.getElem?_set_ne h]

theorem memcpy_whole (dst src : Packet) (n : Nat) (hs : src.length = n) (hd : dst.length = n) :
    memcpy dst src n = src := by
  simp [memcpy, List.take_of_length_le (le_of_eq hs), List.drop_of_length_le (le_of_eq hd)]

/-- A suspended task does not run. -/
theorem dap_thread_run_suspended (cfg : Config) (fuel : Nat) (w : World)
    (h : w.pc.suspended = true) : dap_thread_run cfg fuel w = w := by
  cases fuel <;> simp [dap_thread_run, h]

/-- The state that `dap_edpt_open` leaves when it is called under `OpenOk`. -/
theorem open_ok (cfg : Config) (w0 : World) (rhport : Nat) (itf_desc : tusb_desc_interface_t)
    (edpts : List tusb_desc_endpoint_t) (max_len : Nat)
    (h : OpenOk cfg w0 itf_desc edpts max_len) :
    (dap_edpt_open cfg w0 rhport itf_desc edpts max_len).1 =
      { w0 with
        USBResponseBuffer :=
          { w0.USBResponseBuffer with wptr := 0, rptr := 0, wasFull := false, wasEmpty := true },
        USBRequestBuffer :=
          { w0.USBRequestBuffer with wptr := 0, rptr := 0, wasFull := false, wasEmpty := true },
        itf_num := itf_desc.bInterfaceNumber,
        _out_ep_addr := (edpts.getD 0 ⟨0⟩).bEndpointAddress,
        _in_ep_addr := (edpts.getD 1 ⟨0⟩).bEndpointAddress,
        xfers := w0.xfers ++ [⟨rhport, (edpts.getD 0 ⟨0⟩).bEndpointAddress, Ring.request, 0,
          cfg.DAP_PACKET_SIZE⟩],
        rx_armed := [⟨rhport, (edpts.getD 0 ⟨0⟩).bEndpointAddress, Ring.request, 0,
          cfg.DAP_PACKET_SIZE⟩],
        opened := w0.opened ++ [(edpts.getD 0 ⟨0⟩).bEndpointAddress,
          (edpts.getD 1 ⟨0⟩).bEndpointAddress] } := by
  obtain ⟨h1, h2, h3, h4, h5, h6, h7, h8, -⟩ := h
  unfold dap_edpt_open
  generalize edpts.getD 0 ⟨0⟩ = d_out at *
  generalize edpts.getD 1 ⟨0⟩ = d_in at *
  simp [h1, h2, h3, h4, usbd_edpt_open, usbd_edpt_xfer, h5, TUSB_DIR_OUT_ne_IN, WR_IDX, h7]

/-! ### The completion callback, one call at a time -/

/-- C6 (inbound bridge step).  For every state and every OUT completion with
`xferred_bytes <= DAP_PACKET_SIZE`, `dap_edpt_xfer_cb` returns true and calls
`vTaskResume`; when `buffer_full` is false it increments `wptr` by one (as a
`uint32_t`), arms exactly one receive transfer of `DAP_PACKET_SIZE` bytes into
slot `(new wptr) mod DAP_PACKET_COUNT` and clears `wasFull`; when
`buffer_full` is true it arms nothing, keeps `wptr` and sets `wasFull`.  In
both cases `rptr`, the slot contents and the whole response ring are
unchanged. -/
theorem inbound_bridge_step (cfg : Config) (w : World) (rhport ep_addr xferred_bytes : Nat)
    (hdir : tu_edpt_dir ep_addr = TUSB_DIR_OUT)
    (hbytes : xferred_bytes ≤ cfg.DAP_PACKET_SIZE) :
    (dap_edpt_xfer_cb cfg w rhport ep_addr xferred_bytes).2 = true ∧
    (dap_edpt_xfer_cb cfg w rhport ep_addr xferred_bytes).1.resume_calls
      = w.resume_calls + 1 ∧
    (dap_edpt_xfer_cb cfg w rhport ep_addr xferred_bytes).1.pc = (vTaskResume w).pc ∧
    (buffer_full cfg w.USBRequestBuffer = false →
      (dap_edpt_xfer_cb cfg w rhport ep_addr xferred_bytes).1.USBRequestBuffer.wptr
        = u32 (w.USBRequestBuffer.wptr + 1) ∧
      (w.USBRequestBuffer.wptr + 1 < 4294967296 →
        (dap_edpt_xfer_cb cfg w rhport ep_addr xferred_bytes).1.USBRequestBuffer.wptr
          = w.USBRequestBuffer.wptr + 1) ∧
      (dap_edpt_xfer_cb cfg w rhport ep_addr xferred_bytes).1.xfers
        = w.xfers ++ [⟨rhport, ep_addr, Ring.request,
            u32 (w.USBRequestBuffer.wptr + 1) % cfg.DAP_PACKET_COUNT, cfg.DAP_PACKET_SIZE⟩] ∧
      (dap_edpt_xfer_cb cfg w rhport ep_addr xferred_bytes).1.rx_armed
        = w.rx_armed ++ [⟨rhport, ep_addr, Ring.request,
            u32 (w.USBRequestBuffer.wptr + 1) % cfg.DAP_PACKET_COUNT, cfg.DAP_PACKET_SIZE⟩] ∧
      (dap_edpt_xfer_cb cfg w rhport ep_addr xferred_bytes).1.USBRequestBuffer.wasFull
        = false) ∧
    (buffer_full cfg w.USBRequestBuffer = true →
      (dap_edpt_xfer_cb cfg w rhport ep_addr xferred_bytes).1.xfers = w.xfers ∧
      (dap_edpt_xfer_cb cfg w rhport ep_addr xferred_bytes).1.rx_armed = w.rx_armed ∧
      (dap_edpt_xfer_cb cfg w rhport ep_addr xferred_bytes).1.USBRequestBuffer.wptr
        = w.USBRequestBuffer.wptr ∧
      (dap_edpt_xfer_cb cfg w rhport ep_addr xferred_bytes).1.USBRequestBuffer.wasFull
        = true) ∧
    (dap_edpt_xfer_cb cfg w rhport ep_addr xferred_bytes).1.USBRequestBuffer.rptr
      = w.USBRequestBuffer.rptr ∧
    (dap_edpt_xfer_cb cfg w rhport ep_addr xferred_bytes).1.USBRequestBuffer.data
      = w.USBRequestBuffer.data ∧
    (dap_edpt_xfer_cb cfg w rhport ep_addr xferred_bytes).1.tx_armed = w.tx_armed ∧
    (dap_edpt_xfer_cb cfg w rhport ep_addr xferred_bytes).1.executed = w.executed ∧
    (dap_edpt_xfer_cb cfg w rhport ep_addr xferred_bytes).1.USBResponseBuffer
      = w.USBResponseBuffer := by
  have hne : tu_edpt_dir ep_addr ≠ TUSB_DIR_IN := by rw [hdir]; exact TUSB_DIR_OUT_ne_IN
  cases hfull : buffer_full cfg w.USBRequestBuffer <;>
    simp [dap_edpt_xfer_cb, hdir, hbytes, hfull, vTaskResume, usbd_edpt_xfer, WR_IDX,
      TUSB_DIR_OUT_ne_IN]
  intro h
  simp [u32]
  omega

/-- The inbound bridge step at a concrete completion: 64 bytes on endpoint
0x04 in the state left by `dap_edpt_open`. -/
theorem inbound_bridge_step_witness :
    (dap_edpt_xfer_cb cfg4 opened4 0 4 64).2 = true ∧
    (dap_edpt_xfer_cb cfg4 opened4 0 4 64).1.USBRequestBuffer.wptr = 1 ∧
    (dap_edpt_xfer_cb cfg4 opened4 0 4 64).1.USBRequestBuffer.wasFull = false := by
  have h := inbound_bridge_step cfg4 opened4 0 4 64 (by decide) (by decide)
  exact ⟨h.1, (h.2.2.2.1 (by decide)).2.1 (by decide), (h.2.2.2.1 (by decide)).2.2.2.2⟩

/-- C7 (outbound bridge step).  For every state and every IN completion with
`xferred_bytes <= DAP_PACKET_SIZE`, `dap_edpt_xfer_cb` returns true, calls
`vTaskResume` and increments `rptr` of the response ring by one (as a
`uint32_t`); when `wasEmpty` was false it arms exactly one outbound transfer
from slot `(new rptr) mod DAP_PACKET_COUNT` and sets `wasEmpty` to
`(new rptr + 1 == wptr)`; when `wasEmpty` was true it arms nothing and leaves
`wasEmpty` true.  `wptr`, the slot contents and the whole request ring are
unchanged. -/
theorem outbound_bridge_step (cfg : Config) (w : World) (rhport ep_addr xferred_bytes : Nat)
    (hdir : tu_edpt_dir ep_addr = TUSB_DIR_IN)
    (hbytes : xferred_bytes ≤ cfg.DAP_PACKET_SIZE) :
    (dap_edpt_xfer_cb cfg w rhport ep_addr xferred_bytes).2 = true ∧
    (dap_edpt_xfer_cb cfg w rhport ep_addr xferred_bytes).1.resume_calls
      = w.resume_calls + 1 ∧
    (dap_edpt_xfer_cb cfg w rhport ep_addr xferred_bytes).1.pc = (vTaskResume w).pc ∧
    (dap_edpt_xfer_cb cfg w rhport ep_addr xferred_bytes).1.USBResponseBuffer.rptr
      = u32 (w.USBResponseBuffer.rptr + 1) ∧
    (w.USBResponseBuffer.rptr + 1 < 4294967296 →
      (dap_edpt_xfer_cb cfg w rhport ep_addr xferred_bytes).1.USBResponseBuffer.rptr
        = w.USBResponseBuffer.rptr + 1) ∧
    (w.USBResponseBuffer.wasEmpty = false →
      (dap_edpt_xfer_cb cfg w rhport ep_addr xferred_bytes).1.xfers
        = w.xfers ++ [⟨rhport, ep_addr, Ring.response,
            u32 (w.USBResponseBuffer.rptr + 1) % cfg.DAP_PACKET_COUNT, u16 w._resp_len⟩] ∧
      (dap_edpt_xfer_cb cfg w rhport ep_addr xferred_bytes).1.tx_armed
        = w.tx_armed ++ [⟨rhport, ep_addr, Ring.response,
            u32 (w.USBResponseBuffer.rptr + 1) % cfg.DAP_PACKET_COUNT, u16 w._resp_len⟩] ∧
      (dap_edpt_xfer_cb cfg w rhport ep_addr xferred_bytes).1.USBResponseBuffer.wasEmpty
        = (u32 (u32 (w.USBResponseBuffer.rptr + 1) + 1) == w.USBResponseBuffer.wptr)) ∧
    (w.USBResponseBuffer.wasEmpty = true →
      (dap_edpt_xfer_cb cfg w rhport ep_addr xferred_bytes).1.xfers = w.xfers ∧
      (dap_edpt_xfer_cb cfg w rhport ep_addr xferred_bytes).1.tx_armed = w.tx_armed ∧
      (dap_edpt_xfer_cb cfg w rhport ep_addr xferred_bytes).1.USBResponseBuffer.wasEmpty
        = true) ∧
    (dap_edpt_xfer_cb cfg w rhport ep_addr xferred_bytes).1.USBResponseBuffer.wptr
      = w.USBResponseBuffer.wptr ∧
    (dap_edpt_xfer_cb cfg w rhport ep_addr xferred_bytes).1.USBResponseBuffer.data
      = w.USBResponseBuffer.data ∧
    (dap_edpt_xfer_cb cfg w rhport ep_addr xferred_bytes).1.rx_armed = w.rx_armed ∧
    (dap_edpt_xfer_cb cfg w rhport ep_addr xferred_bytes).1.executed = w.executed ∧
    (dap_edpt_xfer_cb cfg w rhport ep_addr xferred_bytes).1.USBRequestBuffer
      = w.USBRequestBuffer := by
  cases hempty : w.USBResponseBuffer.wasEmpty <;>
    simp [dap_edpt_xfer_cb, hdir, hbytes, hempty, vTaskResume, usbd_edpt_xfer, RD_IDX]
  all_goals
    intro h
    simp [u32]
    omega

/-- The outbound bridge step at a concrete completion: 4 bytes on endpoint
0x85 in the state left by `dap_edpt_open`. -/
theorem outbound_bridge_step_witness :
    (dap_edpt_xfer_cb cfg4 opened4 0 133 4).2 = true ∧
    (dap_edpt_xfer_cb cfg4 opened4 0 133 4).1.USBResponseBuffer.rptr = 1 ∧
    (dap_edpt_xfer_cb cfg4 opened4 0 133 4).1.xfers = opened4.xfers := by
  have h := outbound_bridge_step cfg4 opened4 0 133 4 (by decide) (by decide)
  exact ⟨h.1, h.2.2.2.2.1 (by decide), (h.2.2.2.2.2.2.1 (by decide)).1⟩

/-- C9 (transport fault).  For every state and every endpoint address, a
completion with `xferred_bytes > DAP_PACKET_SIZE` makes `dap_edpt_xfer_cb`
return false and leave the whole state unchanged (both rings with their
cursors, flags and slots, the armed transfers, the task and the count of
`vTaskResume` calls); and the callback returns true if and only if
`xferred_bytes <= DAP_PACKET_SIZE`. -/
theorem transport_fault (cfg : Config) (w : World) (rhport ep_addr xferred_bytes : Nat) :
    (cfg.DAP_PACKET_SIZE < xferred_bytes →
      dap_edpt_xfer_cb cfg w rhport ep_addr xferred_bytes = (w, false)) ∧
    ((dap_edpt_xfer_cb cfg w rhport ep_addr xferred_bytes).2 = true ↔
      xferred_bytes ≤ cfg.DAP_PACKET_SIZE) := by
  rcases tu_edpt_dir_cases ep_addr with hdir | hdir
  · by_cases hb : xferred_bytes ≤ cfg.DAP_PACKET_SIZE
    · simp [dap_edpt_xfer_cb, hdir, hb]
    · simp [dap_edpt_xfer_cb, hdir, hb]
  · by_cases hb : xferred_bytes ≤ cfg.DAP_PACKET_SIZE
    · simp [dap_edpt_xfer_cb, hdir, hb, TUSB_DIR_OUT_ne_IN]
    · simp [dap_edpt_xfer_cb, hdir, hb, TUSB_DIR_OUT_ne_IN]

/-- The transport fault at a concrete completion: 65 bytes for packets of 64. -/
theorem transport_fault_witness :
    dap_edpt_xfer_cb cfg4 opened4 0 4 65 = (opened4, false) :=
  (transport_fault cfg4 opened4 0 4 65).1 (by decide)

/-! ### The publish step of the task -/

/-- The publish step when the response ring is empty. -/
theorem publish_empty (cfg : Config) (w : World)
    (h : w.USBResponseBuffer.wptr = w.USBResponseBuffer.rptr) :
    dap_thread_publish cfg w =
      usbd_edpt_xfer
        { w with USBResponseBuffer :=
            { set_slot w.USBResponseBuffer (WR_IDX cfg w.USBResponseBuffer)
                (memcpy (slot w.USBResponseBuffer (WR_IDX cfg w.USBResponseBuffer))
                  w.DAPResponseBuffer (u16 w._resp_len)) with
              wptr := u32 (w.USBResponseBuffer.wptr + 1) } }
        w._rhport w._in_ep_addr Ring.response (RD_IDX cfg w.USBResponseBuffer)
        (u16 w._resp_len) := by
  simp [dap_thread_publish, buffer_empty, h, set_slot, RD_IDX]

/-- The publish step when a response is already pending. -/
theorem publish_nonempty (cfg : Config) (w : World)
    (h : w.USBResponseBuffer.wptr ≠ w.USBResponseBuffer.rptr) :
    dap_thread_publish cfg w =
      { w with USBResponseBuffer :=
          { set_slot w.USBResponseBuffer (WR_IDX cfg w.USBResponseBuffer)
              (memcpy (slot w.USBResponseBuffer (WR_IDX cfg w.USBResponseBuffer))
                w.DAPResponseBuffer (u16 w._resp_len)) with
            wptr := u32 (w.USBResponseBuffer.wptr + 1), wasEmpty := false } } := by
  simp [dap_thread_publish, buffer_empty, h, set_slot]

/-- C5 (empty chain).  When the publish step of `dap_thread` runs with the
response ring empty (`wptr == rptr`) it writes the response into the slot at
`wptr`, advances `wptr` by one and arms exactly one outbound transfer, from
that slot.  When it runs with a response already pending it advances `wptr`,
sets `wasEmpty = false` and arms no transfer; and if exactly one response was
pending (the one in flight), the IN completion of that one arms the transfer
of the second response, from the slot the publish step wrote. -/
theorem empty_chain (cfg : Config) (w : World) :
    (w.USBResponseBuffer.wptr = w.USBResponseBuffer.rptr →
      (dap_thread_publish cfg w).USBResponseBuffer.wptr
        = u32 (w.USBResponseBuffer.wptr + 1) ∧
      (dap_thread_publish cfg w).USBResponseBuffer.data
        = w.USBResponseBuffer.data.set (w.USBResponseBuffer.wptr % cfg.DAP_PACKET_COUNT)
            (memcpy (slot w.USBResponseBuffer (w.USBResponseBuffer.wptr % cfg.DAP_PACKET_COUNT))
              w.DAPResponseBuffer (u16 w._resp_len)) ∧
      (dap_thread_publish cfg w).xfers
        = w.xfers ++ [⟨w._rhport, w._in_ep_addr, Ring.response,
            w.USBResponseBuffer.wptr % cfg.DAP_PACKET_COUNT, u16 w._resp_len⟩] ∧
      (tu_edpt_dir w._in_ep_addr = TUSB_DIR_IN →
        (dap_thread_publish cfg w).tx_armed
          = w.tx_armed ++ [⟨w._rhport, w._in_ep_addr, Ring.response,
              w.USBResponseBuffer.wptr % cfg.DAP_PACKET_COUNT, u16 w._resp_len⟩])) ∧
    (w.USBResponseBuffer.wptr ≠ w.USBResponseBuffer.rptr →
      (dap_thread_publish cfg w).USBResponseBuffer.wptr
        = u32 (w.USBResponseBuffer.wptr + 1) ∧
      (dap_thread_publish cfg w).USBResponseBuffer.data
        = w.USBResponseBuffer.data.set (w.USBResponseBuffer.wptr % cfg.DAP_PACKET_COUNT)
            (memcpy (slot w.USBResponseBuffer (w.USBResponseBuffer.wptr % cfg.DAP_PACKET_COUNT))
              w.DAPResponseBuffer (u16 w._resp_len)) ∧
      (dap_thread_publish cfg w).USBResponseBuffer.wasEmpty = false ∧
      (dap_thread_publish cfg w).xfers = w.xfers ∧
      (dap_thread_publish cfg w).tx_armed = w.tx_armed ∧
      (dap_thread_publish cfg w).rx_armed = w.rx_armed) ∧
    (∀ rhport ep_addr xferred_bytes : Nat,
      tu_edpt_dir ep_addr = TUSB_DIR_IN → xferred_bytes ≤ cfg.DAP_PACKET_SIZE →
      w.USBResponseBuffer.wptr = u32 (w.USBResponseBuffer.rptr + 1) →
      (dap_edpt_xfer_cb cfg (dap_thread_publish cfg w) rhport ep_addr xferred_bytes).1.xfers
        = w.xfers ++ [⟨rhport, ep_addr, Ring.response,
            w.USBResponseBuffer.wptr % cfg.DAP_PACKET_COUNT, u16 w._resp_len⟩]) := by
  refine ⟨?_, ?_, ?_⟩
  · intro h
    rw [publish_empty cfg w h]
    by_cases hd : tu_edpt_dir w._in_ep_addr = TUSB_DIR_IN <;>
      simp [usbd_edpt_xfer, hd, set_slot, WR_IDX, RD_IDX, h]
  · intro h
    rw [publish_nonempty cfg w h]
    simp [set_slot, WR_IDX]
  · intro rhport ep_addr xferred_bytes hd hb h
    have hne : w.USBResponseBuffer.wptr ≠ w.USBResponseBuffer.rptr := by
      rw [h]; exact u32_succ_ne _
    rw [publish_nonempty cfg w hne]
    simp [dap_edpt_xfer_cb, hd, hb, set_slot, usbd_edpt_xfer, vTaskResume, RD_IDX, h]

/-- The publish step in the state left by `dap_edpt_open`, whose response
ring is empty. -/
theorem empty_chain_witness :
    (dap_thread_publish cfg4 opened4).USBResponseBuffer.wptr = 1 ∧
    (dap_thread_publish cfg4 opened4).xfers
      = opened4.xfers ++ [⟨0, 133, Ring.response, 0, 0⟩] :=
  ⟨((empty_chain cfg4 opened4).1 rfl).1, ((empty_chain cfg4 opened4).1 rfl).2.2.1⟩

/-! ### The idle task -/

/-- One wake-up of the idle task on an empty request ring. -/
theorem wake_and_run_idle (cfg : Config) (fuel : Nat) (w : World) (hfuel : 1 ≤ fuel)
    (hempty : w.USBRequestBuffer.rptr = w.USBRequestBuffer.wptr) (hidle : w.pc = Pc.idle) :
    wake_and_run cfg fuel w = { w with resume_calls := w.resume_calls + 1 } := by
  obtain ⟨f, rfl⟩ : ∃ f, fuel = f + 1 := ⟨fuel - 1, by omega⟩
  unfold wake_and_run
  rw [dap_thread_run]
  simp only [vTaskResume, hidle, Pc.suspended]
  simp only [dap_thread_step, hempty]
  rw [dap_thread_run_suspended]
  · simp
  · simp [Pc.suspended]

/-- Wake-ups and basic blocks of the task on an empty request ring change only
the place of the task, between `idle` and `loop`, and the count of wake-ups. -/
theorem idle_schedule (cfg : Config) (evs : List Event) :
    ∀ w w2 : World, (∀ e ∈ evs, e = Event.wake ∨ e = Event.thread) →
      w.USBRequestBuffer.rptr = w.USBRequestBuffer.wptr →
      (w.pc = Pc.idle ∨ w.pc = Pc.loop) →
      run cfg w evs = some w2 →
      (w2.pc = Pc.idle ∨ w2.pc = Pc.loop) ∧
      w2 = { w with pc := w2.pc, resume_calls := w2.resume_calls } := by
  induction evs with
  | nil =>
    intro w w2 _ _ hpc hrun
    simp [run] at hrun
    subst hrun
    exact ⟨hpc, rfl⟩
  | cons e es ih =>
    intro w w2 hev hempty hpc hrun
    have he := hev e (List.mem_cons_self _ _)
    have hes : ∀ e2 ∈ es, e2 = Event.wake ∨ e2 = Event.thread :=
      fun e2 h2 => hev e2 (List.mem_cons_of_mem _ h2)
    rcases he with rfl | rfl
    · simp only [run, step] at hrun
      have h := ih (vTaskResume w) w2 hes (by simpa [vTaskResume] using hempty)
        (by rcases hpc with h | h <;> simp [vTaskResume, h]) hrun
      refine ⟨h.1, ?_⟩
      rw [h.2]
      simp [vTaskResume]
    · rcases hpc with h | h
      · simp [run, step, h, Pc.suspended] at hrun
      · simp only [run, step, h, Pc.suspended] at hrun
        have h2 := ih (dap_thread_step cfg w) w2 hes
          (by simp [dap_thread_step, h, hempty])
          (by simp [dap_thread_step, h, hempty]) hrun
        refine ⟨h2.1, ?_⟩
        rw [h2.2]
        simp [dap_thread_step, h, hempty]

/-- C10 (idempotent idle).  In every state in which the request ring is empty
(`rptr == wptr`) and `dap_thread` is suspended at its idle point, any number
`k` of wake-ups, each followed by a run of the task until it suspends itself,
leaves the whole state unchanged but for the count of `vTaskResume` calls: no
call of `DAP_ExecuteCommand`, no transfer armed, both rings unchanged and the
task suspended at the idle point again.  The same holds for every
interleaving of wake-ups and of basic blocks of the task, after which one
more block at most brings the task back to its idle point. -/
theorem idempotent_idle (cfg : Config) (w : World)
    (hempty : w.USBRequestBuffer.rptr = w.USBRequestBuffer.wptr) (hidle : w.pc = Pc.idle) :
    (∀ fuel k : Nat, 1 ≤ fuel →
      (wake_and_run cfg fuel)^[k] w = { w with resume_calls := w.resume_calls + k }) ∧
    (∀ (evs : List Event) (w2 : World),
      (∀ e ∈ evs, e = Event.wake ∨ e = Event.thread) → run cfg w evs = some w2 →
      (w2.pc = Pc.idle ∨ w2.pc = Pc.loop) ∧
      w2 = { w with pc := w2.pc, resume_calls := w2.resume_calls } ∧
      ∀ fuel : Nat, 1 ≤ fuel → dap_thread_run cfg fuel w2 = { w2 with pc := Pc.idle }) := by
  constructor
  · intro fuel k hfuel
    induction k with
    | zero => simp
    | succ k ih =>
      rw [Function.iterate_succ_apply', ih,
        wake_and_run_idle cfg fuel { w with resume_calls := w.resume_calls + k } hfuel hempty
          hidle]
      simp
      omega
  · intro evs w2 hev hrun
    have h := idle_schedule cfg evs w w2 hev hempty (Or.inl hidle) hrun
    refine ⟨h.1, h.2, ?_⟩
    intro fuel hfuel
    have hempty2 : w2.USBRequestBuffer.rptr = w2.USBRequestBuffer.wptr := by
      rw [h.2]; exact hempty
    rcases h.1 with hp | hp
    · rw [dap_thread_run_suspended _ _ _ (by simp [hp, Pc.suspended])]
      cases w2
      simp_all
    · obtain ⟨f, rfl⟩ : ∃ f, fuel = f + 1 := ⟨fuel - 1, by omega⟩
      rw [dap_thread_run]
      simp only [hp, Pc.suspended]
      simp only [dap_thread_step, hp, hempty2]
      rw [dap_thread_run_suspended]
      · simp
      · simp [Pc.suspended]

/-- Three wake-ups of the idle task in the state reached after one packet was
received and executed. -/
theorem idempotent_idle_witness :
    (wake_and_run cfg4 1)^[3] idle4 = { idle4 with resume_calls := idle4.resume_calls + 3 } :=
  (idempotent_idle cfg4 idle4 (by decide) (by decide)).1 1 3 (by decide)

/-! ### The request ring once the cursors have passed `DAP_PACKET_COUNT` -/

/-- C1 (no loss, no duplication, FIFO order), evaluated on the code with
`DAP_PACKET_COUNT = 4`: packets 0 to 3 are drained one by one, packets 4 to 8
arrive in a burst, and `DAP_ExecuteCommand` then receives packets
0, 1, 2, 3, 8, 5, 6, 7, 8.  Packet 4 is lost and packet 8 is executed twice:
once `rptr` has reached 4, `buffer_full` is never true again. -/
theorem fifo_violated_after_wrap :
    (run cfg4 opened4 (burst_schedule ++ List.replicate 11 Event.thread)).map
        (fun w => w.executed)
      = some [pkt 0, pkt 1, pkt 2, pkt 3, pkt 8, pkt 5, pkt 6, pkt 7, pkt 8] := by
  decide

/-- C2 (capacity invariant of the request ring), evaluated on the code with
`DAP_PACKET_COUNT = 4`: after the same events the cursors are `wptr = 9` and
`rptr = 4`, so `wptr - rptr = 5` exceeds `DAP_PACKET_COUNT - 1 = 3`. -/
theorem capacity_exceeded_after_wrap :
    (run cfg4 opened4 burst_schedule).map
        (fun w => (w.USBRequestBuffer.wptr, w.USBRequestBuffer.rptr,
          decide (w.USBRequestBuffer.wptr - w.USBRequestBuffer.rptr
            ≤ cfg4.DAP_PACKET_COUNT - 1)))
      = some (9, 4, false) := by
  decide

/-! ### The length of chained response transfers -/

/-- C8 (outbound transfer length), evaluated on the code: three requests
whose responses have 4, 2 and 6 bytes are executed before the first response
transfer completes.  When the second one has been executed and published,
`_resp_len` is 2 and slot 1 of the response ring holds that response (bytes
2, 2).  After the third one, the IN completion of the first response arms the
transfer of slot 1, which still holds the second response, with 6 bytes, the
last value of `_resp_len`. -/
theorem queued_response_sent_with_last_length :
    (run cfg4 opened4 (three_responses_schedule.take 7)).map
        (fun w => (w._resp_len, (slot w.USBResponseBuffer 1).take 2, w.tx_armed))
      = some (2, [2, 2], [⟨0, 133, Ring.response, 0, 4⟩]) ∧
    (run cfg4 opened4 three_responses_schedule).map
        (fun w => (w._resp_len, (slot w.USBResponseBuffer 1).take 2, w.tx_armed))
      = some (6, [2, 2], [⟨0, 133, Ring.response, 1, 6⟩]) := by
  decide

/-! ### Stall of the request ring and its relief -/

/-- What the publish step leaves unchanged. -/
theorem publish_frame (cfg : Config) (w : World)
    (hin : tu_edpt_dir w._in_ep_addr = TUSB_DIR_IN) :
    (dap_thread_publish cfg w).USBRequestBuffer = w.USBRequestBuffer ∧
    (dap_thread_publish cfg w).rx_armed = w.rx_armed ∧
    (dap_thread_publish cfg w).executed = w.executed ∧
    (dap_thread_publish cfg w).pc = w.pc ∧
    (dap_thread_publish cfg w)._rhport = w._rhport ∧
    (dap_thread_publish cfg w)._out_ep_addr = w._out_ep_addr ∧
    (dap_thread_publish cfg w)._in_ep_addr = w._in_ep_addr ∧
    (dap_thread_publish cfg w).DAPRequestBuffer = w.DAPRequestBuffer ∧
    (∀ x ∈ (dap_thread_publish cfg w).tx_armed,
      x ∈ w.tx_armed ∨ tu_edpt_dir x.ep_addr = TUSB_DIR_IN) := by
  by_cases h : w.USBResponseBuffer.wptr = w.USBResponseBuffer.rptr
  · rw [publish_empty cfg w h]
    simp [usbd_edpt_xfer, hin]
    intro x hx
    rcases hx with hx | hx
    · exact Or.inl hx
    · right; rw [hx]; exact hin
  · rw [publish_nonempty cfg w h]
    simp
    intro x hx
    exact Or.inl hx

/-- Effect of lines 330 to 371 of `dap_thread` (consume, execute, publish) on
the request side of the state. -/
theorem iteration_frame (cfg : Config) (w : World)
    (hin : tu_edpt_dir w._in_ep_addr = TUSB_DIR_IN) :
    (dap_thread_publish cfg (dap_thread_execute cfg (dap_thread_consume cfg w))).executed
      = w.executed ++ [memcpy w.DAPRequestBuffer
          (slot w.USBRequestBuffer (RD_IDX cfg w.USBRequestBuffer)) cfg.DAP_PACKET_SIZE] ∧
    (dap_thread_publish cfg (dap_thread_execute cfg (dap_thread_consume cfg w))).DAPRequestBuffer
      = memcpy w.DAPRequestBuffer
          (slot w.USBRequestBuffer (RD_IDX cfg w.USBRequestBuffer)) cfg.DAP_PACKET_SIZE ∧
    (dap_thread_publish cfg (dap_thread_execute cfg (dap_thread_consume cfg w)))._rhport
      = w._rhport ∧
    (dap_thread_publish cfg (dap_thread_execute cfg (dap_thread_consume cfg w)))._out_ep_addr
      = w._out_ep_addr ∧
    (dap_thread_publish cfg (dap_thread_execute cfg (dap_thread_consume cfg w)))._in_ep_addr
      = w._in_ep_addr ∧
    (dap_thread_publish cfg
        (dap_thread_execute cfg (dap_thread_consume cfg w))).USBRequestBuffer.data
      = w.USBRequestBuffer.data ∧
    (dap_thread_publish cfg
        (dap_thread_execute cfg (dap_thread_consume cfg w))).USBRequestBuffer.rptr
      = u32 (w.USBRequestBuffer.rptr + 1) ∧
    (dap_thread_publish cfg
        (dap_thread_execute cfg (dap_thread_consume cfg w))).USBRequestBuffer.wasFull
      = false ∧
    (∀ x ∈ (dap_thread_publish cfg
        (dap_thread_execute cfg (dap_thread_consume cfg w))).tx_armed,
      x ∈ w.tx_armed ∨ tu_edpt_dir x.ep_addr = TUSB_DIR_IN) ∧
    (w.USBRequestBuffer.wasFull = false →
      (dap_thread_publish cfg
          (dap_thread_execute cfg (dap_thread_consume cfg w))).USBRequestBuffer.wptr
        = w.USBRequestBuffer.wptr ∧
      (dap_thread_publish cfg (dap_thread_execute cfg (dap_thread_consume cfg w))).rx_armed
        = w.rx_armed) ∧
    (w.USBRequestBuffer.wasFull = true → tu_edpt_dir w._out_ep_addr = TUSB_DIR_OUT →
      (dap_thread_publish cfg
          (dap_thread_execute cfg (dap_thread_consume cfg w))).USBRequestBuffer.wptr
        = u32 (w.USBRequestBuffer.wptr + 1) ∧
      (dap_thread_publish cfg (dap_thread_execute cfg (dap_thread_consume cfg w))).rx_armed
        = w.rx_armed ++ [⟨w._rhport, w._out_ep_addr, Ring.request,
            u32 (w.USBRequestBuffer.wptr + 1) % cfg.DAP_PACKET_COUNT, cfg.DAP_PACKET_SIZE⟩]) := by
  have hin2 : tu_edpt_dir (dap_thread_execute cfg (dap_thread_consume cfg w))._in_ep_addr
      = TUSB_DIR_IN := by
    cases hf : w.USBRequestBuffer.wasFull <;>
      by_cases ho : tu_edpt_dir w._out_ep_addr = TUSB_DIR_IN <;>
      simp [dap_thread_execute, dap_thread_consume, hf, usbd_edpt_xfer, ho, hin]
  obtain ⟨p1, p2, p3, p4, p5, p6, p7, p8, p9⟩ := publish_frame cfg _ hin2
  rw [p1, p2, p3, p5, p6, p7, p8]
  refine ⟨?_, ?_, ?_, ?_, ?_, ?_, ?_, ?_, ?_, ?_, ?_⟩
  · cases hf : w.USBRequestBuffer.wasFull <;>
      by_cases ho : tu_edpt_dir w._out_ep_addr = TUSB_DIR_IN <;>
      simp [dap_thread_execute, dap_thread_consume, hf, usbd_edpt_xfer, ho]
  · cases hf : w.USBRequestBuffer.wasFull <;>
      by_cases ho : tu_edpt_dir w._out_ep_addr = TUSB_DIR_IN <;>
      simp [dap_thread_execute, dap_thread_consume, hf, usbd_edpt_xfer, ho]
  · cases hf : w.USBRequestBuffer.wasFull <;>
      by_cases ho : tu_edpt_dir w._out_ep_addr = TUSB_DIR_IN <;>
      simp [dap_thread_execute, dap_thread_consume, hf, usbd_edpt_xfer, ho]
  · cases hf : w.USBRequestBuffer.wasFull <;>
      by_cases ho : tu_edpt_dir w._out_ep_addr = TUSB_DIR_IN <;>
      simp [dap_thread_execute, dap_thread_consume, hf, usbd_edpt_xfer, ho]
  · cases hf : w.USBRequestBuffer.wasFull <;>
      by_cases ho : tu_edpt_dir w._out_ep_addr = TUSB_DIR_IN <;>
      simp [dap_thread_execute, dap_thread_consume, hf, usbd_edpt_xfer, ho]
  · cases hf : w.USBRequestBuffer.wasFull <;>
      by_cases ho : tu_edpt_dir w._out_ep_addr = TUSB_DIR_IN <;>
      simp [dap_thread_execute, dap_thread_consume, hf, usbd_edpt_xfer, ho]
  · cases hf : w.USBRequestBuffer.wasFull <;>
      by_cases ho : tu_edpt_dir w._out_ep_addr = TUSB_DIR_IN <;>
      simp [dap_thread_execute, dap_thread_consume, hf, usbd_edpt_xfer, ho]
  · cases hf : w.USBRequestBuffer.wasFull <;>
      by_cases ho : tu_edpt_dir w._out_ep_addr = TUSB_DIR_IN <;>
      simp [dap_thread_execute, dap_thread_consume, hf, usbd_edpt_xfer, ho]
  · intro x hx
    rcases p9 x hx with h | h
    · revert h
      cases hf : w.USBRequestBuffer.wasFull <;>
        by_cases ho : tu_edpt_dir w._out_ep_addr = TUSB_DIR_IN <;>
        simp [dap_thread_execute, dap_thread_consume, hf, usbd_edpt_xfer, ho]
      · intro h
        exact Or.inl h
      · intro h
        exact Or.inl h
      · intro h
        rcases h with h | h
        · exact Or.inl h
        · right; rw [h]; exact ho
      · intro h
        exact Or.inl h
    · exact Or.inr h
  · intro hf
    by_cases ho : tu_edpt_dir w._out_ep_addr = TUSB_DIR_IN <;>
      simp [dap_thread_execute, dap_thread_consume, hf, usbd_edpt_xfer, ho]
  · intro hf ho
    simp [dap_thread_execute, dap_thread_consume, hf, usbd_edpt_xfer, ho, TUSB_DIR_OUT_ne_IN,
      WR_IDX]

/-- A basic block of `dap_thread` either changes only slot contents and the
place of the task, or it is the block of lines 330 to 371. -/
theorem thread_step_cases (cfg : Config) (w : World) :
    (∃ d pc2, dap_thread_step cfg w =
      { w with USBRequestBuffer := { w.USBRequestBuffer with data := d }, pc := pc2 }) ∨
    dap_thread_step cfg w =
      { dap_thread_publish cfg (dap_thread_execute cfg (dap_thread_consume cfg w)) with
        pc := Pc.loop } := by
  unfold dap_thread_step
  split
  · split
    · exact Or.inl ⟨_, _, rfl⟩
    · exact Or.inl ⟨_, _, rfl⟩
  · split
    · exact Or.inl ⟨_, _, rfl⟩
    · exact Or.inr rfl
  · split
    · exact Or.inl ⟨_, _, rfl⟩
    · exact Or.inl ⟨_, _, rfl⟩
  · rename_i h
    refine Or.inl ⟨w.USBRequestBuffer.data, w.pc, ?_⟩
    cases w
    rfl
  · rename_i h
    refine Or.inl ⟨w.USBRequestBuffer.data, w.pc, ?_⟩
    cases w
    rfl

/-- An OUT completion that delivers a whole packet into a ring that is not
full. -/
theorem step_out_commit (cfg : Config) (w : World) (rh ep : Nat) (p : Packet)
    (harmed : w.rx_armed =
      [⟨rh, ep, Ring.request, w.USBRequestBuffer.wptr, cfg.DAP_PACKET_SIZE⟩])
    (hep : tu_edpt_dir ep = TUSB_DIR_OUT)
    (hp : p.length = cfg.DAP_PACKET_SIZE)
    (hlen : (slot w.USBRequestBuffer w.USBRequestBuffer.wptr).length = cfg.DAP_PACKET_SIZE)
    (hr : w.USBRequestBuffer.rptr = 0)
    (hw : w.USBRequestBuffer.wptr + 1 < cfg.DAP_PACKET_COUNT)
    (hcount : cfg.DAP_PACKET_COUNT ≤ 4294967296) :
    step cfg w (Event.out p cfg.DAP_PACKET_SIZE) = some (vTaskResume
      { w with
        USBRequestBuffer :=
          { set_slot w.USBRequestBuffer w.USBRequestBuffer.wptr p with
            wptr := w.USBRequestBuffer.wptr + 1, wasFull := false },
        rx_armed := [⟨rh, ep, Ring.request, w.USBRequestBuffer.wptr + 1, cfg.DAP_PACKET_SIZE⟩],
        xfers := w.xfers ++
          [⟨rh, ep, Ring.request, w.USBRequestBuffer.wptr + 1, cfg.DAP_PACKET_SIZE⟩] }) := by
  have hu : u32 (w.USBRequestBuffer.wptr + 1) = w.USBRequestBuffer.wptr + 1 :=
    u32_small _ (by omega)
  have hm : (w.USBRequestBuffer.wptr + 1) % cfg.DAP_PACKET_COUNT
      = w.USBRequestBuffer.wptr + 1 := Nat.mod_eq_of_lt hw
  have hc := memcpy_whole (slot w.USBRequestBuffer w.USBRequestBuffer.wptr) p
    cfg.DAP_PACKET_SIZE hp hlen
  simp [step, harmed, hw_store, hc, dap_edpt_xfer_cb, hep, TUSB_DIR_OUT_ne_IN, buffer_full,
    set_slot, hu, hm, hr, usbd_edpt_xfer, WR_IDX]

/-- An IN completion leaves the request side of the state unchanged. -/
theorem cb_in_frame (cfg : Config) (w : World) (rh ep n : Nat)
    (hdir : tu_edpt_dir ep = TUSB_DIR_IN) :
    (dap_edpt_xfer_cb cfg w rh ep n).1.USBRequestBuffer = w.USBRequestBuffer ∧
    (dap_edpt_xfer_cb cfg w rh ep n).1.rx_armed = w.rx_armed ∧
    (dap_edpt_xfer_cb cfg w rh ep n).1._in_ep_addr = w._in_ep_addr ∧
    (∀ x ∈ (dap_edpt_xfer_cb cfg w rh ep n).1.tx_armed,
      x ∈ w.tx_armed ∨ tu_edpt_dir x.ep_addr = TUSB_DIR_IN) ∧
    (dap_edpt_xfer_cb cfg w rh ep n).1.DAPRequestBuffer = w.DAPRequestBuffer ∧
    (dap_edpt_xfer_cb cfg w rh ep n).1.executed = w.executed ∧
    ((dap_edpt_xfer_cb cfg w rh ep n).1.pc = w.pc ∨
      (dap_edpt_xfer_cb cfg w rh ep n).1.pc = (vTaskResume w).pc) := by
  by_cases hb : n ≤ cfg.DAP_PACKET_SIZE
  · cases he : w.USBResponseBuffer.wasEmpty
    · simp [dap_edpt_xfer_cb, hdir, hb, he, usbd_edpt_xfer, vTaskResume]
      intro x hx
      rcases hx with hx | hx
      · exact Or.inl hx
      · right; rw [hx]; exact hdir
    · simp [dap_edpt_xfer_cb, hdir, hb, he, vTaskResume]
      intro x hx
      exact Or.inl hx
  · simp [dap_edpt_xfer_cb, hdir, hb]
    intro x hx
    exact Or.inl hx

/-- C13 (full test and occupancy).  For a ring with `rptr <= wptr` and at most
`DAP_PACKET_COUNT - 1` packets: as long as the read cursor is below
`DAP_PACKET_COUNT`, `buffer_full` is true exactly when the ring holds
`DAP_PACKET_COUNT - 1` packets; once the read cursor has reached
`DAP_PACKET_COUNT`, `buffer_full` is false whatever the ring holds, also when
it holds `DAP_PACKET_COUNT - 1` packets. -/
theorem buffer_full_blind_past_count (cfg : Config) (b : buffer_t)
    (hc : 0 < cfg.DAP_PACKET_COUNT) (hc2 : 2 * cfg.DAP_PACKET_COUNT ≤ 4294967296)
    (hle : b.rptr ≤ b.wptr) (hocc : b.wptr - b.rptr ≤ cfg.DAP_PACKET_COUNT - 1) :
    (b.rptr < cfg.DAP_PACKET_COUNT →
      (buffer_full cfg b = true ↔ b.wptr - b.rptr = cfg.DAP_PACKET_COUNT - 1)) ∧
    (cfg.DAP_PACKET_COUNT ≤ b.rptr → buffer_full cfg b = false) := by
  constructor
  · intro hr
    have hu : u32 (b.wptr + 1) = b.wptr + 1 := u32_small _ (by omega)
    simp only [buffer_full, hu, beq_iff_eq]
    constructor
    · intro h
      have h1 := Nat.mod_add_div (b.wptr + 1) cfg.DAP_PACKET_COUNT
      rw [h] at h1
      have h2 : (b.wptr + 1) / cfg.DAP_PACKET_COUNT = 1 := by
        have h3 : (b.wptr + 1) / cfg.DAP_PACKET_COUNT < 2 := by
          rw [Nat.div_lt_iff_lt_mul hc]
          omega
        have h4 : 0 < (b.wptr + 1) / cfg.DAP_PACKET_COUNT := by
          rcases Nat.eq_zero_or_pos ((b.wptr + 1) / cfg.DAP_PACKET_COUNT) with h5 | h5
          · rw [h5] at h1
            omega
          · exact h5
        omega
      rw [h2] at h1
      omega
    · intro h
      have h1 : b.wptr + 1 = b.rptr + cfg.DAP_PACKET_COUNT := by omega
      rw [h1, Nat.add_mod_right]
      exact Nat.mod_eq_of_lt hr
  · intro hr
    have h1 := Nat.mod_lt (u32 (b.wptr + 1)) hc
    simp only [buffer_full, beq_eq_false_iff_ne, ne_eq]
    omega

/-- The full test on the concrete probe: with `wptr = 7` and `rptr = 4` the
ring holds three packets, its whole usable capacity, and `buffer_full` is
false. -/
theorem buffer_full_blind_past_count_witness :
    ring_7_4.wptr - ring_7_4.rptr = cfg4.DAP_PACKET_COUNT - 1 ∧
    buffer_full cfg4 ring_7_4 = false :=
  ⟨by decide, (buffer_full_blind_past_count cfg4 ring_7_4 (by decide) (by decide) (by decide)
    (by decide)).2 (by decide)⟩

/-! ### Reset and open -/

/-- C15, as claimed, fails: in the state of the examples in which one packet
has been received and executed, both cursors of the request ring and the write
cursor of the response ring are 1, and they still are after
`dap_edpt_reset`. -/
theorem reset_keeps_cursors :
    (dap_edpt_reset idle4).USBRequestBuffer.wptr = 1 ∧
    (dap_edpt_reset idle4).USBRequestBuffer.rptr = 1 ∧
    (dap_edpt_reset idle4).USBResponseBuffer.wptr = 1 ∧
    (dap_edpt_reset idle4).USBResponseBuffer.rptr = 0 := by
  decide

/-- C15 (reset), amended.  For every state, `dap_edpt_reset` sets `itf_num`
to 0 and leaves both rings, and everything else, as they are; the rings are
put into their initial state by the next call of `dap_edpt_open` with a
descriptor of matching class, subclass and protocol. -/
theorem reset_leaves_rings (cfg : Config) (w : World) (rhport : Nat)
    (itf_desc : tusb_desc_interface_t) (edpts : List tusb_desc_endpoint_t) (max_len : Nat)
    (hmatch : cfg.TUSB_CLASS_VENDOR_SPECIFIC = itf_desc.bInterfaceClass ∧
      cfg.DAP_INTERFACE_SUBCLASS = itf_desc.bInterfaceSubClass ∧
      cfg.DAP_INTERFACE_PROTOCOL = itf_desc.bInterfaceProtocol) :
    dap_edpt_reset w = { w with itf_num := 0 } ∧
    (dap_edpt_reset w).USBRequestBuffer = w.USBRequestBuffer ∧
    (dap_edpt_reset w).USBResponseBuffer = w.USBResponseBuffer ∧
    RingInit
      (dap_edpt_open cfg (dap_edpt_reset w) rhport itf_desc edpts max_len).1.USBRequestBuffer ∧
    RingInit
      (dap_edpt_open cfg (dap_edpt_reset w) rhport itf_desc edpts max_len).1.USBResponseBuffer := by
  unfold RingInit
  refine ⟨rfl, rfl, rfl, ?_, ?_⟩
  · unfold dap_edpt_open
    rw [if_pos hmatch]
    by_cases h : max_len ≥ u16 (sizeof_tusb_desc_interface_t +
        itf_desc.bNumEndpoints * sizeof_tusb_desc_endpoint_t)
    · by_cases hd : tu_edpt_dir (edpts.getD 0 ⟨0⟩).bEndpointAddress = TUSB_DIR_IN <;>
        simp [h, usbd_edpt_open, usbd_edpt_xfer, hd, dap_edpt_reset, -List.getD_eq_getElem?_getD]
    · simp [h, dap_edpt_reset]
  · unfold dap_edpt_open
    rw [if_pos hmatch]
    by_cases h : max_len ≥ u16 (sizeof_tusb_desc_interface_t +
        itf_desc.bNumEndpoints * sizeof_tusb_desc_endpoint_t)
    · by_cases hd : tu_edpt_dir (edpts.getD 0 ⟨0⟩).bEndpointAddress = TUSB_DIR_IN <;>
        simp [h, usbd_edpt_open, usbd_edpt_xfer, hd, dap_edpt_reset, -List.getD_eq_getElem?_getD]
    · simp [h, dap_edpt_reset]

/-- Reset on the concrete probe: after one packet has been received and
executed, `dap_edpt_reset` leaves the cursors at 1, and opening the interface
again zeroes them. -/
theorem reset_leaves_rings_witness :
    (dap_edpt_reset idle4).USBRequestBuffer = idle4.USBRequestBuffer ∧
    RingInit (dap_edpt_open cfg4 (dap_edpt_reset idle4) 0 itf4 edpts4 23).1.USBRequestBuffer :=
  ⟨(reset_leaves_rings cfg4 idle4 0 itf4 edpts4 23 (by decide)).2.1,
   (reset_leaves_rings cfg4 idle4 0 itf4 edpts4 23 (by decide)).2.2.2.1⟩

/-- C16 (open initialises before arming).  The number of endpoints being a
`uint8_t`: for a descriptor of matching class, subclass and protocol and
`max_len >= drv_len`, `dap_edpt_open` returns `drv_len`, leaves both rings
with `wptr = rptr = 0`, `wasFull = false`, `wasEmpty = true`, and calls
`usbd_edpt_xfer` exactly once, on the endpoint of the first descriptor, for
`DAP_PACKET_SIZE` bytes into slot 0 of the request ring, whatever the write
cursor was before; that endpoint being an OUT endpoint, the transfer is a
receive and no outbound transfer is armed.  For a descriptor that does not
match it returns 0 and leaves the whole state unchanged.  And whenever it
returns a non-zero value it has armed that first transfer. -/
theorem open_contract (cfg : Config) (w : World) (rhport : Nat)
    (itf_desc : tusb_desc_interface_t) (edpts : List tusb_desc_endpoint_t) (max_len : Nat)
    (hn : itf_desc.bNumEndpoints < 256) :
    ((cfg.TUSB_CLASS_VENDOR_SPECIFIC = itf_desc.bInterfaceClass ∧
        cfg.DAP_INTERFACE_SUBCLASS = itf_desc.bInterfaceSubClass ∧
        cfg.DAP_INTERFACE_PROTOCOL = itf_desc.bInterfaceProtocol) →
      max_len ≥ sizeof_tusb_desc_interface_t +
        itf_desc.bNumEndpoints * sizeof_tusb_desc_endpoint_t →
      (dap_edpt_open cfg w rhport itf_desc edpts max_len).2
        = sizeof_tusb_desc_interface_t +
          itf_desc.bNumEndpoints * sizeof_tusb_desc_endpoint_t ∧
      RingInit (dap_edpt_open cfg w rhport itf_desc edpts max_len).1.USBRequestBuffer ∧
      RingInit (dap_edpt_open cfg w rhport itf_desc edpts max_len).1.USBResponseBuffer ∧
      (dap_edpt_open cfg w rhport itf_desc edpts max_len).1.xfers
        = w.xfers ++ [⟨rhport, (edpts.getD 0 ⟨0⟩).bEndpointAddress, Ring.request, 0,
            cfg.DAP_PACKET_SIZE⟩] ∧
      (tu_edpt_dir (edpts.getD 0 ⟨0⟩).bEndpointAddress = TUSB_DIR_OUT →
        (dap_edpt_open cfg w rhport itf_desc edpts max_len).1.rx_armed
          = w.rx_armed ++ [⟨rhport, (edpts.getD 0 ⟨0⟩).bEndpointAddress, Ring.request, 0,
              cfg.DAP_PACKET_SIZE⟩] ∧
        (dap_edpt_open cfg w rhport itf_desc edpts max_len).1.tx_armed = w.tx_armed)) ∧
    (¬ (cfg.TUSB_CLASS_VENDOR_SPECIFIC = itf_desc.bInterfaceClass ∧
        cfg.DAP_INTERFACE_SUBCLASS = itf_desc.bInterfaceSubClass ∧
        cfg.DAP_INTERFACE_PROTOCOL = itf_desc.bInterfaceProtocol) →
      dap_edpt_open cfg w rhport itf_desc edpts max_len = (w, 0)) ∧
    ((dap_edpt_open cfg w rhport itf_desc edpts max_len).2 ≠ 0 →
      (dap_edpt_open cfg w rhport itf_desc edpts max_len).1.xfers
        = w.xfers ++ [⟨rhport, (edpts.getD 0 ⟨0⟩).bEndpointAddress, Ring.request, 0,
            cfg.DAP_PACKET_SIZE⟩]) := by
  have hu : u16 (sizeof_tusb_desc_interface_t +
      itf_desc.bNumEndpoints * sizeof_tusb_desc_endpoint_t)
      = sizeof_tusb_desc_interface_t +
        itf_desc.bNumEndpoints * sizeof_tusb_desc_endpoint_t := by
    unfold u16 sizeof_tusb_desc_interface_t sizeof_tusb_desc_endpoint_t
    omega
  have hpos : sizeof_tusb_desc_interface_t +
      itf_desc.bNumEndpoints * sizeof_tusb_desc_endpoint_t ≠ 0 := by
    unfold sizeof_tusb_desc_interface_t
    omega
  unfold dap_edpt_open
  rw [hu]
  generalize edpts.getD 0 ⟨0⟩ = d_out at *
  generalize edpts.getD 1 ⟨0⟩ = d_in at *
  generalize sizeof_tusb_desc_interface_t +
      itf_desc.bNumEndpoints * sizeof_tusb_desc_endpoint_t = drv_len at *
  by_cases hm : cfg.TUSB_CLASS_VENDOR_SPECIFIC = itf_desc.bInterfaceClass ∧
      cfg.DAP_INTERFACE_SUBCLASS = itf_desc.bInterfaceSubClass ∧
      cfg.DAP_INTERFACE_PROTOCOL = itf_desc.bInterfaceProtocol
  · rw [if_pos hm]
    by_cases hl : max_len ≥ drv_len
    · by_cases hd : tu_edpt_dir d_out.bEndpointAddress = TUSB_DIR_IN
      · simp [hm, hl, hd, usbd_edpt_open, usbd_edpt_xfer, WR_IDX, RingInit,
          TUSB_DIR_OUT_ne_IN.symm]
      · simp [hm, hl, hd, usbd_edpt_open, usbd_edpt_xfer, WR_IDX, RingInit]
    · simp [hm, hl]
  · rw [if_neg hm]
    simp [hm]

/-- Open on the concrete probe: from a state whose rings have moved
(`idle4`, both write cursors at 1), a matching descriptor with two endpoints
and `max_len = 23` gives the return value 23 and one receive of 64 bytes into
slot 0 on endpoint 0x04; a descriptor of class 8 gives 0 and no change. -/
theorem open_contract_witness :
    (dap_edpt_open cfg4 idle4 0 itf4 edpts4 23).2 = 23 ∧
    (dap_edpt_open cfg4 idle4 0 itf4 edpts4 23).1.xfers
      = idle4.xfers ++ [⟨0, 4, Ring.request, 0, 64⟩] ∧
    dap_edpt_open cfg4 idle4 0 itf_storage4 edpts4 23 = (idle4, 0) :=
  ⟨((open_contract cfg4 idle4 0 itf4 edpts4 23 (by decide)).1 (by decide) (by decide)).1,
   ((open_contract cfg4 idle4 0 itf4 edpts4 23 (by decide)).1 (by decide)
      (by decide)).2.2.2.1,
   (open_contract cfg4 idle4 0 itf_storage4 edpts4 23 (by decide)).2.1
      (by decide)⟩

/-! ### The executor and queued commands once the cursors have passed `DAP_PACKET_COUNT` -/

/-- C17, as claimed, fails: along `raw_queue_schedule` the fifth request that
`dap_thread` passes to `DAP_ExecuteCommand` is the packet `cmd 126 9`, whose
byte 0 is `ID_DAP_QueueCommands`: it has overwritten the relabelled packet at
the read cursor, which `buffer_full` did not protect. -/
theorem raw_queue_command_executed :
    (run cfg4 opened4 (raw_queue_schedule.take 24)).map
        (fun w => (w.USBRequestBuffer.wptr, w.USBRequestBuffer.rptr,
          slot w.USBRequestBuffer 0, w.pc))
      = some (5, 4, cmd 127 5, Pc.wait 5) ∧
    (run cfg4 opened4 raw_queue_schedule).map (fun w => w.executed)
      = some [cmd 0 1, cmd 0 2, cmd 0 3, cmd 0 4, cmd 126 9] ∧
    (cmd 126 9).getD 0 0 = cfg4.ID_DAP_QueueCommands := by
  decide

/-! ### The capacity of the response ring -/

/-- C14, as claimed, fails: along `lagging_schedule` the transfer of the first
response (slot 0, two bytes) stays in flight; after four requests the write
cursor of the response ring is 4 ahead of the read cursor, and the fifth
response is written into slot 0, over the first one. -/
theorem response_ring_overrun :
    (run cfg4 opened4 (lagging_schedule.take 16)).map
        (fun w => (w.USBResponseBuffer.wptr, w.USBResponseBuffer.rptr, w.tx_armed,
          (slot w.USBResponseBuffer 0).take 2))
      = some (4, 0, [⟨0, 133, Ring.response, 0, 2⟩], [0, 2]) ∧
    (run cfg4 opened4 lagging_schedule).map
        (fun w => (w.USBResponseBuffer.wptr, w.USBResponseBuffer.rptr, w.tx_armed,
          (slot w.USBResponseBuffer 0).take 2))
      = some (5, 0, [⟨0, 133, Ring.response, 0, 2⟩], [4, 2]) := by
  decide

/-! ### Completions that report more than `DAP_PACKET_SIZE` bytes -/

/-- C11, as claimed, fails: after an OUT completion that reports 65 bytes no
receive is armed, although `wasFull` is false and `buffer_full` is false. -/
theorem receive_lost_on_long_completion :
    (run cfg4 opened4 [Event.out (cmd 0 2) 65]).map
        (fun w => (w.rx_armed, w.USBRequestBuffer.wasFull, buffer_full cfg4 w.USBRequestBuffer))
      = some ([], false, false) := by
  decide

/-- C12, as claimed, fails: a response is published and its transfer
completes with 65 bytes reported; the response ring is not empty (`wptr = 1`,
`rptr = 0`) and no outbound transfer is in flight. -/
theorem response_lost_on_long_completion :
    (run cfg4 opened4 ([Event.out (cmd 0 2) 64] ++ drain_one ++ [Event.inn 65])).map
        (fun w => (w.USBResponseBuffer.wptr, w.USBResponseBuffer.rptr, w.tx_armed))
      = some (1, 0, []) := by
  decide

/-! ### Schedules -/

theorem run_append (cfg : Config) (evs1 evs2 : List Event) :
    ∀ w, run cfg w (evs1 ++ evs2) = (run cfg w evs1).bind (fun w1 => run cfg w1 evs2) := by
  induction evs1 with
  | nil =>
    intro w
    simp [run]
  | cons e es ih =>
    intro w
    simp only [List.cons_append, run]
    cases step cfg w e with
    | none => simp
    | some w1 => simp [ih]

theorem run_snoc (cfg : Config) (w w1 w2 : World) (evs : List Event) (e : Event)
    (h1 : run cfg w evs = some w1) (h2 : step cfg w1 e = some w2) :
    run cfg w (evs ++ [e]) = some w2 := by
  rw [run_append, h1]
  simp [run, h2]

theorem run_snoc_inv (cfg : Config) (w w2 : World) (evs : List Event) (e : Event)
    (h : run cfg w (evs ++ [e]) = some w2) :
    ∃ w1, run cfg w evs = some w1 ∧ step cfg w1 e = some w2 := by
  rw [run_append] at h
  cases h1 : run cfg w evs with
  | none => simp [h1] at h
  | some w1 =>
    rw [h1] at h
    cases h2 : step cfg w1 e with
    | none => simp [run, h2] at h
    | some w3 =>
      simp [run, h2] at h
      exact ⟨w1, rfl, by rw [h2, h]⟩

/-- Induction along a schedule, event by event: a property of the position in
the schedule and of the state holds at the end if it holds at the start and
every event of the schedule carries it one position further. -/
theorem run_induction (cfg : Config) (w0 : World) (evs : List Event)
    (I : Nat → World → Prop) (h0 : I 0 w0)
    (hstep : ∀ i e w w2, e ∈ evs → evs.take (i + 1) = evs.take i ++ [e] →
      run cfg w0 (evs.take i) = some w → I i w →
      step cfg w e = some w2 → run cfg w0 (evs.take (i + 1)) = some w2 → I (i + 1) w2) :
    ∀ w, run cfg w0 evs = some w → I evs.length w := by
  have key : ∀ i, i ≤ evs.length → ∀ w, run cfg w0 (evs.take i) = some w → I i w := by
    intro i
    induction i with
    | zero =>
      intro _ w hrun
      simp only [List.take_zero, run] at hrun
      injection hrun with hrun
      rw [← hrun]
      exact h0
    | succ i ih =>
      intro hi w hrun
      have hlt : i < evs.length := hi
      have htake : evs.take (i + 1) = evs.take i ++ [evs.get ⟨i, hlt⟩] := by
        rw [List.take_succ, List.getElem?_eq_getElem hlt]
        rfl
      have hrun2 := hrun
      rw [htake] at hrun2
      obtain ⟨w1, r1, r2⟩ := run_snoc_inv cfg w0 w _ _ hrun2
      exact hstep i _ w1 w (List.get_mem evs i hlt) htake r1 (ih (Nat.le_of_lt hlt) w1 r1) r2
        hrun
  intro w hrun
  exact key evs.length (le_refl _) w (by rw [List.take_length]; exact hrun)

/-! ### What one event leaves unchanged -/

theorem hw_store_frame (w : World) (x : Xfer) (p : Packet) (n : Nat) :
    (hw_store w x p n)._out_ep_addr = w._out_ep_addr ∧
    (hw_store w x p n)._in_ep_addr = w._in_ep_addr ∧
    (hw_store w x p n).rx_armed = w.rx_armed ∧
    (hw_store w x p n).tx_armed = w.tx_armed ∧
    (hw_store w x p n).executed = w.executed ∧
    (hw_store w x p n).USBRequestBuffer.wptr = w.USBRequestBuffer.wptr ∧
    (hw_store w x p n).USBRequestBuffer.rptr = w.USBRequestBuffer.rptr ∧
    (hw_store w x p n).USBRequestBuffer.wasFull = w.USBRequestBuffer.wasFull ∧
    (hw_store w x p n).USBResponseBuffer.wptr = w.USBResponseBuffer.wptr ∧
    (hw_store w x p n).USBResponseBuffer.rptr = w.USBResponseBuffer.rptr ∧
    (hw_store w x p n).USBResponseBuffer.wasEmpty = w.USBResponseBuffer.wasEmpty := by
  cases h : x.ring <;> simp [hw_store, h, set_slot]

theorem buffer_full_congr (cfg : Config) (b1 b2 : buffer_t) (hw : b1.wptr = b2.wptr)
    (hr : b1.rptr = b2.rptr) : buffer_full cfg b1 = buffer_full cfg b2 := by
  unfold buffer_full
  rw [hw, hr]

/-- A completion that reports more than `DAP_PACKET_SIZE` bytes changes
nothing. -/
theorem cb_fault (cfg : Config) (w : World) (rh ep n : Nat) (hn : ¬ n ≤ cfg.DAP_PACKET_SIZE) :
    (dap_edpt_xfer_cb cfg w rh ep n).1 = w := by
  rcases tu_edpt_dir_cases ep with hdir | hdir
  · simp [dap_edpt_xfer_cb, hdir, hn]
  · simp [dap_edpt_xfer_cb, hdir, hn, TUSB_DIR_OUT_ne_IN]

/-- An OUT completion leaves the response side of the state unchanged. -/
theorem cb_out_frame (cfg : Config) (w : World) (rh ep n : Nat)
    (hdir : tu_edpt_dir ep = TUSB_DIR_OUT) :
    (dap_edpt_xfer_cb cfg w rh ep n).1.USBResponseBuffer = w.USBResponseBuffer ∧
    (dap_edpt_xfer_cb cfg w rh ep n).1.tx_armed = w.tx_armed ∧
    (dap_edpt_xfer_cb cfg w rh ep n).1.executed = w.executed ∧
    (dap_edpt_xfer_cb cfg w rh ep n).1._out_ep_addr = w._out_ep_addr ∧
    (dap_edpt_xfer_cb cfg w rh ep n).1._in_ep_addr = w._in_ep_addr ∧
    (∀ x ∈ (dap_edpt_xfer_cb cfg w rh ep n).1.rx_armed,
      x ∈ w.rx_armed ∨ tu_edpt_dir x.ep_addr = TUSB_DIR_OUT) := by
  by_cases hb : n ≤ cfg.DAP_PACKET_SIZE
  · cases hf : buffer_full cfg w.USBRequestBuffer
    · simp [dap_edpt_xfer_cb, hdir, hb, hf, usbd_edpt_xfer, vTaskResume, TUSB_DIR_OUT_ne_IN]
      intro x hx
      rcases hx with hx | hx
      · exact Or.inl hx
      · right; rw [hx]; exact hdir
    · simp [dap_edpt_xfer_cb, hdir, hb, hf, vTaskResume, TUSB_DIR_OUT_ne_IN]
      intro x hx
      exact Or.inl hx
  · rw [cb_fault cfg w rh ep n hb]
    refine ⟨rfl, rfl, rfl, rfl, rfl, ?_⟩
    intro x hx
    exact Or.inl hx

/-- What an accepted OUT completion does to the request side of the state. -/
theorem cb_out_request (cfg : Config) (w : World) (rh ep n : Nat)
    (hdir : tu_edpt_dir ep = TUSB_DIR_OUT) (hb : n ≤ cfg.DAP_PACKET_SIZE) :
    (dap_edpt_xfer_cb cfg w rh ep n).1.USBRequestBuffer.rptr = w.USBRequestBuffer.rptr ∧
    (buffer_full cfg w.USBRequestBuffer = false →
      (dap_edpt_xfer_cb cfg w rh ep n).1.USBRequestBuffer.wptr
        = u32 (w.USBRequestBuffer.wptr + 1) ∧
      (dap_edpt_xfer_cb cfg w rh ep n).1.USBRequestBuffer.wasFull = false ∧
      (dap_edpt_xfer_cb cfg w rh ep n).1.rx_armed
        = w.rx_armed ++ [⟨rh, ep, Ring.request,
            u32 (w.USBRequestBuffer.wptr + 1) % cfg.DAP_PACKET_COUNT, cfg.DAP_PACKET_SIZE⟩]) ∧
    (buffer_full cfg w.USBRequestBuffer = true →
      (dap_edpt_xfer_cb cfg w rh ep n).1.USBRequestBuffer.wptr = w.USBRequestBuffer.wptr ∧
      (dap_edpt_xfer_cb cfg w rh ep n).1.USBRequestBuffer.wasFull = true ∧
      (dap_edpt_xfer_cb cfg w rh ep n).1.rx_armed = w.rx_armed) := by
  cases hf : buffer_full cfg w.USBRequestBuffer
  · simp [dap_edpt_xfer_cb, hdir, hb, hf, usbd_edpt_xfer, vTaskResume, TUSB_DIR_OUT_ne_IN,
      WR_IDX]
  · simp [dap_edpt_xfer_cb, hdir, hb, hf, vTaskResume, TUSB_DIR_OUT_ne_IN]

/-- An IN completion leaves the endpoint addresses unchanged. -/
theorem cb_in_eps (cfg : Config) (w : World) (rh ep n : Nat)
    (hdir : tu_edpt_dir ep = TUSB_DIR_IN) :
    (dap_edpt_xfer_cb cfg w rh ep n).1._out_ep_addr = w._out_ep_addr := by
  by_cases hb : n ≤ cfg.DAP_PACKET_SIZE
  · cases he : w.USBResponseBuffer.wasEmpty <;>
      simp [dap_edpt_xfer_cb, hdir, hb, he, usbd_edpt_xfer, vTaskResume]
  · rw [cb_fault cfg w rh ep n hb]

/-- What an accepted IN completion does to the response side of the state. -/
theorem cb_in_response (cfg : Config) (w : World) (rh ep n : Nat)
    (hdir : tu_edpt_dir ep = TUSB_DIR_IN) (hb : n ≤ cfg.DAP_PACKET_SIZE) :
    (dap_edpt_xfer_cb cfg w rh ep n).1.USBResponseBuffer.rptr
      = u32 (w.USBResponseBuffer.rptr + 1) ∧
    (dap_edpt_xfer_cb cfg w rh ep n).1.USBResponseBuffer.wptr = w.USBResponseBuffer.wptr ∧
    (w.USBResponseBuffer.wasEmpty = true →
      (dap_edpt_xfer_cb cfg w rh ep n).1.USBResponseBuffer.wasEmpty = true ∧
      (dap_edpt_xfer_cb cfg w rh ep n).1.tx_armed = w.tx_armed) ∧
    (w.USBResponseBuffer.wasEmpty = false →
      (dap_edpt_xfer_cb cfg w rh ep n).1.USBResponseBuffer.wasEmpty
        = (u32 (u32 (w.USBResponseBuffer.rptr + 1) + 1) == w.USBResponseBuffer.wptr) ∧
      (dap_edpt_xfer_cb cfg w rh ep n).1.tx_armed
        = w.tx_armed ++ [⟨rh, ep, Ring.response,
            u32 (w.USBResponseBuffer.rptr + 1) % cfg.DAP_PACKET_COUNT, u16 w._resp_len⟩]) := by
  cases he : w.USBResponseBuffer.wasEmpty
  · simp [dap_edpt_xfer_cb, hdir, hb, he, usbd_edpt_xfer, vTaskResume, RD_IDX]
  · simp [dap_edpt_xfer_cb, hdir, hb, he, vTaskResume]

/-- Effect of lines 330 to 371 of `dap_thread` (consume, execute, publish) on
the response side of the state. -/
theorem iteration_response (cfg : Config) (w : World)
    (hout : tu_edpt_dir w._out_ep_addr = TUSB_DIR_OUT)
    (hin : tu_edpt_dir w._in_ep_addr = TUSB_DIR_IN) :
    (dap_thread_publish cfg
        (dap_thread_execute cfg (dap_thread_consume cfg w))).USBResponseBuffer.rptr
      = w.USBResponseBuffer.rptr ∧
    (dap_thread_publish cfg
        (dap_thread_execute cfg (dap_thread_consume cfg w))).USBResponseBuffer.wptr
      = u32 (w.USBResponseBuffer.wptr + 1) ∧
    (w.USBResponseBuffer.wptr = w.USBResponseBuffer.rptr →
      (dap_thread_publish cfg
          (dap_thread_execute cfg (dap_thread_consume cfg w))).USBResponseBuffer.wasEmpty
        = w.USBResponseBuffer.wasEmpty ∧
      ∃ len, (dap_thread_publish cfg
          (dap_thread_execute cfg (dap_thread_consume cfg w))).tx_armed
        = w.tx_armed ++ [⟨w._rhport, w._in_ep_addr, Ring.response,
            w.USBResponseBuffer.rptr % cfg.DAP_PACKET_COUNT, len⟩]) ∧
    (w.USBResponseBuffer.wptr ≠ w.USBResponseBuffer.rptr →
      (dap_thread_publish cfg
          (dap_thread_execute cfg (dap_thread_consume cfg w))).USBResponseBuffer.wasEmpty
        = false ∧
      (dap_thread_publish cfg
          (dap_thread_execute cfg (dap_thread_consume cfg w))).tx_armed = w.tx_armed) := by
  have e1 : (dap_thread_execute cfg (dap_thread_consume cfg w)).USBResponseBuffer
      = w.USBResponseBuffer := by
    cases hf : w.USBRequestBuffer.wasFull <;>
      simp [dap_thread_execute, dap_thread_consume, hf, usbd_edpt_xfer, hout,
        TUSB_DIR_OUT_ne_IN]
  have e2 : (dap_thread_execute cfg (dap_thread_consume cfg w)).tx_armed = w.tx_armed := by
    cases hf : w.USBRequestBuffer.wasFull <;>
      simp [dap_thread_execute, dap_thread_consume, hf, usbd_edpt_xfer, hout,
        TUSB_DIR_OUT_ne_IN]
  have e3 : (dap_thread_execute cfg (dap_thread_consume cfg w))._in_ep_addr
      = w._in_ep_addr := by
    cases hf : w.USBRequestBuffer.wasFull <;>
      simp [dap_thread_execute, dap_thread_consume, hf, usbd_edpt_xfer, hout,
        TUSB_DIR_OUT_ne_IN]
  have e4 : (dap_thread_execute cfg (dap_thread_consume cfg w))._rhport = w._rhport := by
    cases hf : w.USBRequestBuffer.wasFull <;>
      simp [dap_thread_execute, dap_thread_consume, hf, usbd_edpt_xfer, hout,
        TUSB_DIR_OUT_ne_IN]
  generalize dap_thread_execute cfg (dap_thread_consume cfg w) = v at e1 e2 e3 e4
  by_cases h : w.USBResponseBuffer.wptr = w.USBResponseBuffer.rptr
  · rw [publish_empty cfg v (by rw [e1]; exact h)]
    simp [usbd_edpt_xfer, e1, e2, e3, e4, hin, set_slot, h, RD_IDX]
  · rw [publish_nonempty cfg v (by rw [e1]; exact h)]
    simp [e1, e2, set_slot, h]

/-! ### The directions of the armed transfers -/

theorem DirInv_open (cfg : Config) (w0 : World) (rhport : Nat)
    (itf_desc : tusb_desc_interface_t) (edpts : List tusb_desc_endpoint_t) (max_len : Nat)
    (hopen : OpenOk cfg w0 itf_desc edpts max_len) :
    DirInv (dap_edpt_open cfg w0 rhport itf_desc edpts max_len).1 := by
  rw [open_ok cfg w0 rhport itf_desc edpts max_len hopen]
  obtain ⟨h1, h2, h3, h4, h5, h6, h7, h8, -⟩ := hopen
  constructor
  case ep_out => exact h5
  case ep_in => exact h6
  case rx_out =>
    intro x hx
    simp only [List.mem_singleton] at hx
    rw [hx]
    exact h5
  case tx_in =>
    intro x hx
    rw [show ({ w0 with
      USBResponseBuffer := _, USBRequestBuffer := _, itf_num := _, _out_ep_addr := _,
      _in_ep_addr := _, xfers := _, rx_armed := _, opened := _ } : World).tx_armed
        = w0.tx_armed from rfl, h8] at hx
    simp at hx

theorem DirInv_step (cfg : Config) (w w2 : World) (e : Event) (h : DirInv w)
    (hstep : step cfg w e = some w2) : DirInv w2 := by
  cases e with
  | out p n =>
    unfold step at hstep
    cases hrx : w.rx_armed with
    | nil => simp [hrx] at hstep
    | cons x rest =>
      simp only [hrx] at hstep
      injection hstep with hstep
      have hx : tu_edpt_dir x.ep_addr = TUSB_DIR_OUT := h.rx_out x (by simp [hrx])
      obtain ⟨s1, s2, s3, s4, -⟩ := hw_store_frame { w with rx_armed := rest } x p n
      obtain ⟨c1, c2, c3, c4, c5, c6⟩ :=
        cb_out_frame cfg (hw_store { w with rx_armed := rest } x p n) x.rhport x.ep_addr n hx
      rw [hstep] at c1 c2 c3 c4 c5 c6
      constructor
      case ep_out => rw [c4, s1]; exact h.ep_out
      case ep_in => rw [c5, s2]; exact h.ep_in
      case rx_out =>
        intro y hy
        rcases c6 y hy with hy2 | hy2
        · rw [s3] at hy2
          exact h.rx_out y (by rw [hrx]; exact List.mem_cons_of_mem _ hy2)
        · exact hy2
      case tx_in =>
        rw [c2, s4]
        exact h.tx_in
  | inn n =>
    unfold step at hstep
    cases htx : w.tx_armed with
    | nil => simp [htx] at hstep
    | cons x rest =>
      simp only [htx] at hstep
      injection hstep with hstep
      have hx : tu_edpt_dir x.ep_addr = TUSB_DIR_IN := h.tx_in x (by simp [htx])
      obtain ⟨c1, c2, c3, c4, -⟩ :=
        cb_in_frame cfg { w with tx_armed := rest } x.rhport x.ep_addr n hx
      have c5 := cb_in_eps cfg { w with tx_armed := rest } x.rhport x.ep_addr n hx
      rw [hstep] at c1 c2 c3 c4 c5
      constructor
      case ep_out => rw [c5]; exact h.ep_out
      case ep_in => rw [c3]; exact h.ep_in
      case rx_out => rw [c2]; exact h.rx_out
      case tx_in =>
        intro y hy
        rcases c4 y hy with hy2 | hy2
        · exact h.tx_in y (by rw [htx]; exact List.mem_cons_of_mem _ hy2)
        · exact hy2
  | wake =>
    simp only [step] at hstep
    injection hstep with hstep
    subst hstep
    exact ⟨h.ep_out, h.ep_in, h.rx_out, h.tx_in⟩
  | thread =>
    simp only [step] at hstep
    split at hstep
    · simp at hstep
    · injection hstep with hstep
      subst hstep
      rcases thread_step_cases cfg w with ⟨d, pc2, hs⟩ | hs
      · rw [hs]
        exact ⟨h.ep_out, h.ep_in, h.rx_out, h.tx_in⟩
      · rw [hs]
        obtain ⟨-, -, -, f4, f5, -, -, -, f9, f10, f11⟩ := iteration_frame cfg w h.ep_in
        constructor
        case ep_out =>
          show tu_edpt_dir (dap_thread_publish cfg
            (dap_thread_execute cfg (dap_thread_consume cfg w)))._out_ep_addr = _
          rw [f4]; exact h.ep_out
        case ep_in =>
          show tu_edpt_dir (dap_thread_publish cfg
            (dap_thread_execute cfg (dap_thread_consume cfg w)))._in_ep_addr = _
          rw [f5]; exact h.ep_in
        case rx_out =>
          intro y hy
          cases hf : w.USBRequestBuffer.wasFull
          · have := (f10 hf).2
            exact h.rx_out y (by rw [← this]; exact hy)
          · have := (f11 hf h.ep_out).2
            have hy2 : y ∈ w.rx_armed ++ [⟨w._rhport, w._out_ep_addr, Ring.request,
                u32 (w.USBRequestBuffer.wptr + 1) % cfg.DAP_PACKET_COUNT,
                cfg.DAP_PACKET_SIZE⟩] := by
              rw [← this]; exact hy
            rcases List.mem_append.mp hy2 with hy3 | hy3
            · exact h.rx_out y hy3
            · simp only [List.mem_singleton] at hy3
              rw [hy3]
              exact h.ep_out
        case tx_in =>
          intro y hy
          rcases f9 y hy with hy2 | hy2
          · exact h.tx_in y hy2
          · exact hy2

/-! ### The armed receive -/

theorem ReqInv_open (cfg : Config) (w0 : World) (rhport : Nat)
    (itf_desc : tusb_desc_interface_t) (edpts : List tusb_desc_endpoint_t) (max_len : Nat)
    (hopen : OpenOk cfg w0 itf_desc edpts max_len) :
    ReqInv cfg (dap_edpt_open cfg w0 rhport itf_desc edpts max_len).1 := by
  rw [open_ok cfg w0 rhport itf_desc edpts max_len hopen]
  constructor
  case armed =>
    intro _
    exact ⟨rhport, by simp⟩
  case held =>
    intro hf
    simp at hf

theorem ReqInv_step (cfg : Config) (w w2 : World) (e : Event) (hd : DirInv w)
    (h : ReqInv cfg w) (hv : valid_out cfg e = true) (hstep : step cfg w e = some w2) :
    ReqInv cfg w2 := by
  cases e with
  | out p n =>
    simp only [valid_out, decide_eq_true_eq] at hv
    unfold step at hstep
    cases hrx : w.rx_armed with
    | nil => simp [hrx] at hstep
    | cons x rest =>
      simp only [hrx] at hstep
      injection hstep with hstep
      have hnf : w.USBRequestBuffer.wasFull = false := by
        cases hf : w.USBRequestBuffer.wasFull
        · rfl
        · have := (h.held hf).1
          rw [hrx] at this
          simp at this
      obtain ⟨rh, ha⟩ := h.armed hnf
      rw [hrx] at ha
      injection ha with hx hrest
      subst hrest
      have hx2 : tu_edpt_dir x.ep_addr = TUSB_DIR_OUT := by
        rw [hx]; exact hd.ep_out
      have hxe : x.ep_addr = w._out_ep_addr := by rw [hx]
      obtain ⟨s1, -, s3, -, -, s6, s7, -⟩ := hw_store_frame { w with rx_armed := [] } x p n
      obtain ⟨-, -, -, c4, -⟩ :=
        cb_out_frame cfg (hw_store { w with rx_armed := [] } x p n) x.rhport x.ep_addr n hx2
      obtain ⟨r1, r2, r3⟩ :=
        cb_out_request cfg (hw_store { w with rx_armed := [] } x p n) x.rhport x.ep_addr n hx2 hv
      rw [hstep] at c4 r1 r2 r3
      cases hf : buffer_full cfg (hw_store { w with rx_armed := [] } x p n).USBRequestBuffer
      · obtain ⟨q1, q2, q3⟩ := r2 hf
        constructor
        case armed =>
          intro _
          refine ⟨x.rhport, ?_⟩
          rw [q3, s3, q1, s6, c4, s1, hxe]
          rfl
        case held =>
          intro hc
          rw [q2] at hc
          simp at hc
      · obtain ⟨q1, q2, q3⟩ := r3 hf
        constructor
        case armed =>
          intro hc
          rw [q2] at hc
          simp at hc
        case held =>
          intro _
          refine ⟨by rw [q3, s3], ?_⟩
          rw [buffer_full_congr cfg w2.USBRequestBuffer
            (hw_store { w with rx_armed := [] } x p n).USBRequestBuffer q1 r1]
          exact hf
  | inn n =>
    unfold step at hstep
    cases htx : w.tx_armed with
    | nil => simp [htx] at hstep
    | cons x rest =>
      simp only [htx] at hstep
      injection hstep with hstep
      have hx : tu_edpt_dir x.ep_addr = TUSB_DIR_IN := hd.tx_in x (by simp [htx])
      obtain ⟨c1, c2, -⟩ :=
        cb_in_frame cfg { w with tx_armed := rest } x.rhport x.ep_addr n hx
      have c5 := cb_in_eps cfg { w with tx_armed := rest } x.rhport x.ep_addr n hx
      rw [hstep] at c1 c2 c5
      constructor
      case armed =>
        rw [c1, c2, c5]
        exact h.armed
      case held =>
        rw [c1, c2]
        exact h.held
  | wake =>
    simp only [step] at hstep
    injection hstep with hstep
    subst hstep
    exact ⟨h.armed, h.held⟩
  | thread =>
    simp only [step] at hstep
    split at hstep
    · simp at hstep
    · injection hstep with hstep
      subst hstep
      rcases thread_step_cases cfg w with ⟨d, pc2, hs⟩ | hs
      · rw [hs]
        exact ⟨h.armed, h.held⟩
      · rw [hs]
        obtain ⟨-, -, -, f4, -, -, -, f8, -, f10, f11⟩ := iteration_frame cfg w hd.ep_in
        constructor
        case armed =>
          intro _
          show ∃ rh, (dap_thread_publish cfg
              (dap_thread_execute cfg (dap_thread_consume cfg w))).rx_armed
            = [⟨rh, (dap_thread_publish cfg
                (dap_thread_execute cfg (dap_thread_consume cfg w)))._out_ep_addr, Ring.request,
              (dap_thread_publish cfg
                (dap_thread_execute cfg (dap_thread_consume cfg w))).USBRequestBuffer.wptr
                % cfg.DAP_PACKET_COUNT, cfg.DAP_PACKET_SIZE⟩]
          rw [f4]
          cases hf : w.USBRequestBuffer.wasFull
          · obtain ⟨g1, g2⟩ := f10 hf
            rw [g1, g2]
            exact h.armed hf
          · obtain ⟨g1, g2⟩ := f11 hf hd.ep_out
            rw [g1, g2, (h.held hf).1]
            exact ⟨w._rhport, rfl⟩
        case held =>
          intro hc
          have : (dap_thread_publish cfg
              (dap_thread_execute cfg (dap_thread_consume cfg w))).USBRequestBuffer.wasFull
              = true := hc
          rw [f8] at this
          simp at this

/-- C11 (the armed receive), amended.  In every state reached from a
successful `dap_edpt_open` through OUT completions that report at most
`DAP_PACKET_SIZE` bytes, IN completions, wake-ups and basic blocks of
`dap_thread`: at most one receive transfer is armed; an armed receive is a
transfer of `DAP_PACKET_SIZE` bytes on the OUT endpoint into the slot
`wptr mod DAP_PACKET_COUNT` of the request ring; a receive is armed if and
only if `wasFull` is false; and a receive is armed whenever `buffer_full` is
false. -/
theorem receive_armed_invariant (cfg : Config) (w0 : World) (rhport : Nat)
    (itf_desc : tusb_desc_interface_t) (edpts : List tusb_desc_endpoint_t) (max_len : Nat)
    (hopen : OpenOk cfg w0 itf_desc edpts max_len)
    (evs : List Event) (w : World) (hvalid : ValidOut cfg evs)
    (hrun : run cfg (dap_edpt_open cfg w0 rhport itf_desc edpts max_len).1 evs = some w) :
    w.rx_armed.length ≤ 1 ∧
    (∀ x ∈ w.rx_armed, x.ep_addr = w._out_ep_addr ∧ x.ring = Ring.request ∧
      x.slot = w.USBRequestBuffer.wptr % cfg.DAP_PACKET_COUNT ∧
      x.len = cfg.DAP_PACKET_SIZE) ∧
    (w.rx_armed ≠ [] ↔ w.USBRequestBuffer.wasFull = false) ∧
    (buffer_full cfg w.USBRequestBuffer = false → w.rx_armed ≠ []) := by
  have hI : DirInv w ∧ ReqInv cfg w := by
    have := run_induction cfg _ evs (fun _ v => DirInv v ∧ ReqInv cfg v)
      ⟨DirInv_open cfg w0 rhport itf_desc edpts max_len hopen,
       ReqInv_open cfg w0 rhport itf_desc edpts max_len hopen⟩
      (fun i e v v2 he _ _ hv hs _ =>
        ⟨DirInv_step cfg v v2 e hv.1 hs, ReqInv_step cfg v v2 e hv.1 hv.2 (hvalid e he) hs⟩)
      w hrun
    exact this
  obtain ⟨-, hR⟩ := hI
  cases hf : w.USBRequestBuffer.wasFull
  · obtain ⟨rh, ha⟩ := hR.armed hf
    rw [ha]
    refine ⟨by simp, ?_, by simp, by simp⟩
    intro x hx
    simp only [List.mem_singleton] at hx
    rw [hx]
    exact ⟨rfl, rfl, rfl, rfl⟩
  · obtain ⟨ha, hb⟩ := hR.held hf
    rw [ha, hb]
    simp

/-- The armed receive on the concrete probe: after four packets have arrived
and none has been executed, `wasFull` is true and no receive is armed; after
one packet has been received and executed, `wasFull` is false and one receive
is armed, for slot 1. -/
theorem receive_armed_invariant_witness :
    ((run cfg4 opened4 [Event.out (pkt 0) 64, Event.out (pkt 1) 64, Event.out (pkt 2) 64,
        Event.out (pkt 3) 64]).map
        (fun w => (w.USBRequestBuffer.wasFull, w.rx_armed)) = some (true, [])) ∧
    (idle4.rx_armed ≠ [] ↔ idle4.USBRequestBuffer.wasFull = false) ∧
    idle4.rx_armed = [⟨0, 4, Ring.request, 1, 64⟩] :=
  ⟨by decide,
   (receive_armed_invariant cfg4 (boot cfg4) 0 itf4 edpts4 23 (by unfold OpenOk; decide)
      ([Event.out (pkt 0) 64] ++ drain_one) idle4 (by unfold ValidOut; decide)
      (by decide)).2.2.1,
   by decide⟩

/-! ### The response ring -/

theorem completions_snoc (cfg : Config) (evs : List Event) (e : Event) :
    completions cfg (evs ++ [e])
      = completions cfg evs + (if is_completion cfg e = true then 1 else 0) := by
  simp [completions, List.countP_append, List.countP_cons]

/-- The invariant of the response side only reads the response cursors, the
flag `wasEmpty`, the outbound transfers and the log of the executor. -/
theorem RespInv_frame (cfg : Config) (strict : Prop) (e0 c : Nat) (w W : World)
    (h : RespInv cfg strict e0 c w) (hex : W.executed = w.executed)
    (hr : W.USBResponseBuffer.rptr = w.USBResponseBuffer.rptr)
    (hw : W.USBResponseBuffer.wptr = w.USBResponseBuffer.wptr)
    (he : W.USBResponseBuffer.wasEmpty = w.USBResponseBuffer.wasEmpty)
    (htx : W.tx_armed = w.tx_armed) (hin : W._in_ep_addr = w._in_ep_addr) :
    RespInv cfg strict e0 c W := by
  constructor
  case retired => rw [hex]; exact h.retired
  case below => rw [hex]; exact h.below
  case rptr_lt => rw [hr]; exact h.rptr_lt
  case ahead => rw [hw, hr, hex]; exact h.ahead
  case flag => rw [he, hex]; exact h.flag
  case single => rw [htx]; exact h.single
  case idle => rw [hex, htx]; exact h.idle
  case flight => rw [hex, htx, hin, hr]; exact h.flight

theorem RespInv_open (cfg : Config) (strict : Prop) (w0 : World) (rhport : Nat)
    (itf_desc : tusb_desc_interface_t) (edpts : List tusb_desc_endpoint_t) (max_len : Nat)
    (hopen : OpenOk cfg w0 itf_desc edpts max_len) :
    RespInv cfg strict w0.executed.length 0
      (dap_edpt_open cfg w0 rhport itf_desc edpts max_len).1 := by
  rw [open_ok cfg w0 rhport itf_desc edpts max_len hopen]
  obtain ⟨h1, h2, h3, h4, h5, h6, h7, h8, -⟩ := hopen
  constructor
  case retired => exact le_refl _
  case below => simp
  case rptr_lt => simp
  case ahead => simp [u32]
  case flag => simp
  case single => simp [h8]
  case idle =>
    intro _
    exact h8
  case flight =>
    intro _ hlt
    exact absurd hlt (by simp)

theorem RespInv_step (cfg : Config) (strict : Prop) (e0 c : Nat) (w w2 : World) (e : Event)
    (hd : DirInv w) (h : RespInv cfg strict e0 c w)
    (hv : strict → valid_in cfg e = true)
    (hb : w2.executed.length
      < e0 + (c + if is_completion cfg e = true then 1 else 0) + 4294967296)
    (hstep : step cfg w e = some w2) :
    RespInv cfg strict e0 (c + if is_completion cfg e = true then 1 else 0) w2 := by
  obtain ⟨hret, hbel, hrl, hah, hfl, hsi, hid, hfi⟩ := h
  have h : RespInv cfg strict e0 c w := ⟨hret, hbel, hrl, hah, hfl, hsi, hid, hfi⟩
  cases e with
  | out p n =>
    simp only [is_completion, Bool.false_eq_true, if_false, Nat.add_zero] at hb ⊢
    unfold step at hstep
    cases hrx : w.rx_armed with
    | nil => simp [hrx] at hstep
    | cons x rest =>
      simp only [hrx] at hstep
      injection hstep with hstep
      have hx := hd.rx_out x (by simp [hrx])
      obtain ⟨-, s2, -, s4, s5, -, -, -, s9, s10, s11⟩ :=
        hw_store_frame { w with rx_armed := rest } x p n
      obtain ⟨c1, c2, c3, -, c5, -⟩ :=
        cb_out_frame cfg (hw_store { w with rx_armed := rest } x p n) x.rhport x.ep_addr n hx
      rw [hstep] at c1 c2 c3 c5
      exact RespInv_frame cfg strict e0 c w w2 h (by rw [c3, s5]) (by rw [c1, s10])
        (by rw [c1, s9]) (by rw [c1, s11]) (by rw [c2, s4]) (by rw [c5, s2])
  | inn n =>
    unfold step at hstep
    cases htx : w.tx_armed with
    | nil => simp [htx] at hstep
    | cons x rest =>
      simp only [htx] at hstep
      injection hstep with hstep
      have hx := hd.tx_in x (by simp [htx])
      have hrest : rest = [] := by
        rw [htx] at hsi
        simp at hsi
        exact hsi
      subst hrest
      have hP : e0 + c < w.executed.length := by
        by_contra hne
        have := hid (by omega)
        rw [htx] at this
        simp at this
      by_cases hn : n ≤ cfg.DAP_PACKET_SIZE
      · simp only [is_completion, hn, decide_True, if_true] at hb ⊢
        obtain ⟨r1, r2, r3, r4⟩ :=
          cb_in_response cfg { w with tx_armed := [] } x.rhport x.ep_addr n hx hn
        obtain ⟨-, -, c3, -, -, c6, -⟩ :=
          cb_in_frame cfg { w with tx_armed := [] } x.rhport x.ep_addr n hx
        rw [hstep] at r1 r2 r3 r4 c3 c6
        dsimp only at r1 r2 r3 r4 c3 c6
        unfold u32 at r1 r4 hah
        cases he : w.USBResponseBuffer.wasEmpty
        · have hP2 : ¬ (w.executed.length - (e0 + c) ≤ 1) := by
            rw [he] at hfl
            exact of_decide_eq_false hfl.symm
          obtain ⟨q1, q2⟩ := r4 he
          refine ⟨?_, ?_, ?_, ?_, ?_, ?_, ?_, ?_⟩
          · rw [c6]; omega
          · rw [c6]; omega
          · rw [r1]; omega
          · rw [r2, r1, c6, hah]; unfold u32; omega
          · rw [q1, c6]
            rw [Bool.eq_iff_iff]
            simp only [beq_iff_eq, decide_eq_true_eq]
            omega
          · rw [q2]; simp
          · intro hc
            rw [c6] at hc
            omega
          · intro hs _
            obtain ⟨rh, len, hf⟩ := hfi hs hP
            rw [htx] at hf
            injection hf with hf _
            refine ⟨x.rhport, u16 w._resp_len, ?_⟩
            rw [q2, r1, c3, hf]
            rfl
        · have hP2 : w.executed.length - (e0 + c) ≤ 1 := by
            rw [he] at hfl
            exact of_decide_eq_true hfl.symm
          obtain ⟨q1, q2⟩ := r3 he
          refine ⟨?_, ?_, ?_, ?_, ?_, ?_, ?_, ?_⟩
          · rw [c6]; omega
          · rw [c6]; omega
          · rw [r1]; omega
          · rw [r2, r1, c6, hah]; unfold u32; omega
          · rw [q1, c6]
            exact (decide_eq_true (by omega)).symm
          · rw [q2]; simp
          · intro _
            exact q2
          · intro _ hc
            rw [c6] at hc
            omega
      · simp only [is_completion, hn, decide_False, Bool.false_eq_true, if_false,
          Nat.add_zero] at hb ⊢
        rw [cb_fault cfg _ x.rhport x.ep_addr n hn] at hstep
        subst hstep
        refine ⟨?_, ?_, ?_, ?_, ?_, ?_, ?_, ?_⟩
        · exact hret
        · exact hbel
        · exact hrl
        · exact hah
        · exact hfl
        · simp
        · intro _
          rfl
        · intro hs _
          have := hv hs
          simp only [valid_in, decide_eq_true_eq] at this
          exact absurd this hn
  | wake =>
    simp only [is_completion, Bool.false_eq_true, if_false, Nat.add_zero] at hb ⊢
    simp only [step] at hstep
    injection hstep with hstep
    subst hstep
    exact RespInv_frame cfg strict e0 c w _ h rfl rfl rfl rfl rfl rfl
  | thread =>
    simp only [is_completion, Bool.false_eq_true, if_false, Nat.add_zero] at hb ⊢
    simp only [step] at hstep
    split at hstep
    · simp at hstep
    · injection hstep with hstep
      subst hstep
      rcases thread_step_cases cfg w with ⟨d, pc2, hs⟩ | hs
      · rw [hs]
        exact RespInv_frame cfg strict e0 c w _ h rfl rfl rfl rfl rfl rfl
      · rw [hs] at hb ⊢
        obtain ⟨f1, -, -, -, f5, -⟩ := iteration_frame cfg w hd.ep_in
        obtain ⟨g1, g2, g3, g4⟩ := iteration_response cfg w hd.ep_out hd.ep_in
        have hlen : (dap_thread_publish cfg
            (dap_thread_execute cfg (dap_thread_consume cfg w))).executed.length
            = w.executed.length + 1 := by
          rw [f1]
          simp
        generalize dap_thread_publish cfg (dap_thread_execute cfg (dap_thread_consume cfg w))
          = v at hb f5 g1 g2 g3 g4 hlen
        dsimp only at hb
        unfold u32 at g2 hah
        by_cases hemp : w.USBResponseBuffer.wptr = w.USBResponseBuffer.rptr
        · have hP0 : w.executed.length = e0 + c := by
            rw [hah] at hemp
            omega
          obtain ⟨q1, len, q2⟩ := g3 hemp
          rw [hid hP0] at q2
          refine ⟨?_, ?_, ?_, ?_, ?_, ?_, ?_, ?_⟩
          · show e0 + c ≤ v.executed.length; omega
          · show v.executed.length - (e0 + c) < _; omega
          · show v.USBResponseBuffer.rptr < _; omega
          · show v.USBResponseBuffer.wptr
              = u32 (v.USBResponseBuffer.rptr + (v.executed.length - (e0 + c)))
            unfold u32
            omega
          · show v.USBResponseBuffer.wasEmpty = decide (v.executed.length - (e0 + c) ≤ 1)
            rw [q1, hfl, hlen]
            rw [Bool.eq_iff_iff]
            simp only [decide_eq_true_eq]
            omega
          · show v.tx_armed.length ≤ 1; rw [q2]; simp
          · intro hc
            have : v.executed.length = e0 + c := hc
            omega
          · intro _ _
            refine ⟨w._rhport, len, ?_⟩
            show v.tx_armed = [⟨w._rhport, v._in_ep_addr, Ring.response,
              v.USBResponseBuffer.rptr % cfg.DAP_PACKET_COUNT, len⟩]
            rw [q2, f5, g1]
            rfl
        · have hP1 : e0 + c < w.executed.length := by
            by_contra hne
            apply hemp
            rw [hah]
            have : w.executed.length - (e0 + c) = 0 := by omega
            rw [this]
            omega
          obtain ⟨q1, q2⟩ := g4 hemp
          refine ⟨?_, ?_, ?_, ?_, ?_, ?_, ?_, ?_⟩
          · show e0 + c ≤ v.executed.length; omega
          · show v.executed.length - (e0 + c) < _; omega
          · show v.USBResponseBuffer.rptr < _; omega
          · show v.USBResponseBuffer.wptr
              = u32 (v.USBResponseBuffer.rptr + (v.executed.length - (e0 + c)))
            unfold u32
            omega
          · show v.USBResponseBuffer.wasEmpty = decide (v.executed.length - (e0 + c) ≤ 1)
            rw [q1]
            exact (decide_eq_false (by omega)).symm
          · show v.tx_armed.length ≤ 1; rw [q2]; exact hsi
          · intro hc
            have : v.executed.length = e0 + c := hc
            omega
          · intro hs _
            obtain ⟨rh, len, hf⟩ := hfi hs hP1
            refine ⟨rh, len, ?_⟩
            show v.tx_armed = [⟨rh, v._in_ep_addr, Ring.response,
              v.USBResponseBuffer.rptr % cfg.DAP_PACKET_COUNT, len⟩]
            rw [q2, f5, g1]
            exact hf

/-- The invariant of the response side holds along every schedule during
which fewer than `2 ^ 32` responses are pending. -/
theorem RespInv_run (cfg : Config) (strict : Prop) (w0 : World) (rhport : Nat)
    (itf_desc : tusb_desc_interface_t) (edpts : List tusb_desc_endpoint_t) (max_len : Nat)
    (hopen : OpenOk cfg w0 itf_desc edpts max_len) (evs : List Event) (w : World)
    (hvalid : strict → ValidIn cfg evs)
    (hbound : PendingBelow cfg (dap_edpt_open cfg w0 rhport itf_desc edpts max_len).1 evs
      4294967296)
    (hrun : run cfg (dap_edpt_open cfg w0 rhport itf_desc edpts max_len).1 evs = some w) :
    RespInv cfg strict w0.executed.length (completions cfg evs) w := by
  have hex : (dap_edpt_open cfg w0 rhport itf_desc edpts max_len).1.executed = w0.executed := by
    rw [open_ok cfg w0 rhport itf_desc edpts max_len hopen]
  have := run_induction cfg _ evs
    (fun i v => DirInv v ∧ RespInv cfg strict w0.executed.length (completions cfg (evs.take i)) v)
    ⟨DirInv_open cfg w0 rhport itf_desc edpts max_len hopen,
     RespInv_open cfg strict w0 rhport itf_desc edpts max_len hopen⟩
    (fun i e v v2 he ht _ hv hs hr => by
      refine ⟨DirInv_step cfg v v2 e hv.1 hs, ?_⟩
      have hb := hbound (i + 1) v2 hr
      rw [hex, ht, completions_snoc] at hb
      rw [ht, completions_snoc]
      exact RespInv_step cfg strict w0.executed.length _ v v2 e hv.1 hv.2
        (fun hs2 => hvalid hs2 e he) hb hs)
    w hrun
  dsimp only at this
  rw [List.take_length] at this
  exact this.2

/-! ### The log of the executor only grows -/

theorem cb_executed (cfg : Config) (w : World) (rh ep n : Nat) :
    (dap_edpt_xfer_cb cfg w rh ep n).1.executed = w.executed := by
  rcases tu_edpt_dir_cases ep with hdir | hdir
  · exact (cb_in_frame cfg w rh ep n hdir).2.2.2.2.2.1
  · exact (cb_out_frame cfg w rh ep n hdir).2.2.1

theorem step_executed (cfg : Config) (w w2 : World) (e : Event)
    (hstep : step cfg w e = some w2) : w.executed.length ≤ w2.executed.length := by
  cases e with
  | out p n =>
    unfold step at hstep
    cases hrx : w.rx_armed with
    | nil => simp [hrx] at hstep
    | cons x rest =>
      simp only [hrx] at hstep
      injection hstep with hstep
      rw [← hstep, cb_executed, (hw_store_frame _ x p n).2.2.2.2.1]
  | inn n =>
    unfold step at hstep
    cases htx : w.tx_armed with
    | nil => simp [htx] at hstep
    | cons x rest =>
      simp only [htx] at hstep
      injection hstep with hstep
      rw [← hstep, cb_executed]
  | wake =>
    simp only [step] at hstep
    injection hstep with hstep
    rw [← hstep]
    exact le_refl _
  | thread =>
    simp only [step] at hstep
    split at hstep
    · simp at hstep
    · injection hstep with hstep
      subst hstep
      rcases thread_step_cases cfg w with ⟨d, pc2, hs⟩ | hs
      · rw [hs]
      · rw [hs]
        show w.executed.length ≤ (dap_thread_publish cfg
          (dap_thread_execute cfg (dap_thread_consume cfg w))).executed.length
        have h1 : ∀ v : World, (dap_thread_publish cfg v).executed = v.executed := by
          intro v
          by_cases hv : v.USBResponseBuffer.wptr = v.USBResponseBuffer.rptr
          · rw [publish_empty cfg v hv]
            by_cases hdir : tu_edpt_dir v._in_ep_addr = TUSB_DIR_IN <;>
              simp [usbd_edpt_xfer, hdir]
          · rw [publish_nonempty cfg v hv]
        have h2 : (dap_thread_consume cfg w).executed = w.executed := by
          cases hf : w.USBRequestBuffer.wasFull <;>
            by_cases ho : tu_edpt_dir w._out_ep_addr = TUSB_DIR_IN <;>
            simp [dap_thread_consume, hf, usbd_edpt_xfer, ho]
        rw [h1]
        simp [dap_thread_execute, h2]

theorem run_executed (cfg : Config) (evs : List Event) :
    ∀ w w2, run cfg w evs = some w2 → w.executed.length ≤ w2.executed.length := by
  induction evs with
  | nil =>
    intro w w2 h
    simp only [run] at h
    injection h with h
    rw [h]
  | cons e es ih =>
    intro w w2 h
    simp only [run] at h
    cases hs : step cfg w e with
    | none => simp [hs] at h
    | some w1 =>
      simp only [hs] at h
      exact le_trans (step_executed cfg w w1 e hs) (ih w1 w2 h)

/-- A schedule along which the executor is called fewer than `bound` times
keeps fewer than `bound` responses pending. -/
theorem PendingBelow_of_total (cfg : Config) (w0 w : World) (evs : List Event) (bound : Nat)
    (hrun : run cfg w0 evs = some w)
    (h : w.executed.length < w0.executed.length + bound) :
    PendingBelow cfg w0 evs bound := by
  intro i w1 h1
  have h2 : run cfg w0 (evs.take i ++ evs.drop i) = some w := by
    rw [List.take_append_drop]
    exact hrun
  rw [run_append, h1] at h2
  have := run_executed cfg (evs.drop i) w1 w h2
  omega

/-! ### The outbound transfer in flight -/

/-- C12 (one outbound transfer in flight), amended.  In every state reached
from a successful `dap_edpt_open` through basic blocks of `dap_thread`, OUT
completions, wake-ups and IN completions that report at most
`DAP_PACKET_SIZE` bytes, fewer than `2 ^ 32` responses being pending at every
moment: when the response ring is not empty (`wptr != rptr`) exactly one
outbound transfer is in flight, on the IN endpoint and for the slot
`rptr mod DAP_PACKET_COUNT` of the response ring; when the ring is empty none
is in flight. -/
theorem one_response_in_flight (cfg : Config) (w0 : World) (rhport : Nat)
    (itf_desc : tusb_desc_interface_t) (edpts : List tusb_desc_endpoint_t) (max_len : Nat)
    (hopen : OpenOk cfg w0 itf_desc edpts max_len) (evs : List Event) (w : World)
    (hvalid : ValidIn cfg evs)
    (hbound : PendingBelow cfg (dap_edpt_open cfg w0 rhport itf_desc edpts max_len).1 evs
      4294967296)
    (hrun : run cfg (dap_edpt_open cfg w0 rhport itf_desc edpts max_len).1 evs = some w) :
    (w.USBResponseBuffer.wptr ≠ w.USBResponseBuffer.rptr →
      ∃ rh len, w.tx_armed = [⟨rh, w._in_ep_addr, Ring.response,
        w.USBResponseBuffer.rptr % cfg.DAP_PACKET_COUNT, len⟩]) ∧
    (w.USBResponseBuffer.wptr = w.USBResponseBuffer.rptr → w.tx_armed = []) := by
  obtain ⟨hret, hbel, hrl, hah, -, -, hid, hfi⟩ :=
    RespInv_run cfg True w0 rhport itf_desc edpts max_len hopen evs w (fun _ => hvalid)
      hbound hrun
  unfold u32 at hah
  constructor
  · intro hne
    apply hfi trivial
    by_contra hc
    apply hne
    rw [hah]
    have : w.executed.length - (w0.executed.length + completions cfg evs) = 0 := by omega
    rw [this]
    omega
  · intro heq
    apply hid
    rw [hah] at heq
    omega

/-- One outbound transfer in flight on the concrete probe: after three
responses have been published and the first one has been retired, the write
cursor is 3, the read cursor 1, and the one transfer in flight is for slot
1. -/
theorem one_response_in_flight_witness :
    pending_world.USBResponseBuffer.wptr = 3 ∧ pending_world.USBResponseBuffer.rptr = 1 ∧
    ∃ rh len, pending_world.tx_armed = [⟨rh, 133, Ring.response, 1, len⟩] :=
  ⟨by decide, by decide,
   (one_response_in_flight cfg4 (boot cfg4) 0 itf4 edpts4 23 (by unfold OpenOk; decide)
      three_responses_schedule pending_world (by unfold ValidIn; decide)
      (PendingBelow_of_total cfg4 _ pending_world _ _ (by decide) (by decide))
      (by decide)).1 (by decide)⟩

/-! ### The flag `wasEmpty` -/

theorem step_thread_loop (cfg : Config) (w : World) (hpc : w.pc = Pc.loop)
    (hne : w.USBRequestBuffer.rptr ≠ w.USBRequestBuffer.wptr) :
    step cfg w Event.thread = some { w with pc := Pc.scan w.USBRequestBuffer.rptr } := by
  simp [step, hpc, Pc.suspended, dap_thread_step, hne]

theorem step_thread_scan_queued (cfg : Config) (w : World) (n : Nat) (hpc : w.pc = Pc.scan n)
    (hq : (slot w.USBRequestBuffer (n % cfg.DAP_PACKET_COUNT)).getD 0 0
      = cfg.ID_DAP_QueueCommands) :
    step cfg w Event.thread = some
      { w with
        USBRequestBuffer := set_slot w.USBRequestBuffer (n % cfg.DAP_PACKET_COUNT)
          ((slot w.USBRequestBuffer (n % cfg.DAP_PACKET_COUNT)).set 0
            cfg.ID_DAP_ExecuteCommands),
        pc := Pc.check (u32 (n + 1)) } := by
  simp [step, hpc, Pc.suspended, dap_thread_step, hq, -List.getD_eq_getElem?_getD]

theorem step_thread_check (cfg : Config) (w : World) (n : Nat) (hpc : w.pc = Pc.check n) :
    step cfg w Event.thread = some
      { w with pc := if n = w.USBRequestBuffer.wptr then Pc.wait n else Pc.scan n } := by
  simp only [step, hpc, Pc.suspended, dap_thread_step]
  by_cases h : n = w.USBRequestBuffer.wptr <;> simp [h]

theorem run_one (cfg : Config) (w w1 : World) (e : Event) (h : step cfg w e = some w1) :
    run cfg w [e] = some w1 := by
  simp [run, h]

theorem run_two (cfg : Config) (w w1 w2 : World) (e1 e2 : Event)
    (h1 : step cfg w e1 = some w1) (h2 : step cfg w1 e2 = some w2) :
    run cfg w [e1, e2] = some w2 := by
  simp [run, h1, h2]

/-- The OUT completion that finds the ring full: the packet is stored, the
write cursor stays, `wasFull` is set and no receive is armed. -/
theorem step_out_stall (cfg : Config) (w : World) (rh ep : Nat) (p : Packet)
    (harmed : w.rx_armed =
      [⟨rh, ep, Ring.request, w.USBRequestBuffer.wptr, cfg.DAP_PACKET_SIZE⟩])
    (hep : tu_edpt_dir ep = TUSB_DIR_OUT)
    (hp : p.length = cfg.DAP_PACKET_SIZE)
    (hlen : (slot w.USBRequestBuffer w.USBRequestBuffer.wptr).length = cfg.DAP_PACKET_SIZE)
    (hr : w.USBRequestBuffer.rptr = 0)
    (hw : w.USBRequestBuffer.wptr + 1 = cfg.DAP_PACKET_COUNT)
    (hcount : cfg.DAP_PACKET_COUNT ≤ 4294967296) :
    step cfg w (Event.out p cfg.DAP_PACKET_SIZE) = some (vTaskResume
      { w with
        USBRequestBuffer :=
          { set_slot w.USBRequestBuffer w.USBRequestBuffer.wptr p with wasFull := true },
        rx_armed := [] }) := by
  have hm : u32 (w.USBRequestBuffer.wptr + 1) % cfg.DAP_PACKET_COUNT = 0 := by
    rw [hw]
    rcases Nat.lt_or_ge cfg.DAP_PACKET_COUNT 4294967296 with h | h
    · rw [u32_small _ h, Nat.mod_self]
    · have : cfg.DAP_PACKET_COUNT = 4294967296 := by omega
      rw [this]
      rfl
  have hc := memcpy_whole (slot w.USBRequestBuffer w.USBRequestBuffer.wptr) p
    cfg.DAP_PACKET_SIZE hp hlen
  simp [step, harmed, hw_store, hc, dap_edpt_xfer_cb, hep, TUSB_DIR_OUT_ne_IN, buffer_full,
    set_slot, hm, hr]

/-- The state of the batch is kept by a change that leaves the request ring,
the outbound transfers and the log of the executor as they are. -/
theorem FillInv_same (cfg : Config) (ps : Nat → Packet) (e0 : List Packet) (j m : Nat)
    (w W : World) (h : FillInv cfg ps e0 j m w)
    (hdata : W.USBRequestBuffer.data = w.USBRequestBuffer.data)
    (hwptr : W.USBRequestBuffer.wptr = w.USBRequestBuffer.wptr)
    (hrptr : W.USBRequestBuffer.rptr = w.USBRequestBuffer.rptr)
    (htx : W.tx_armed = w.tx_armed) (hex : W.executed = w.executed) :
    FillInv cfg ps e0 j m W := by
  refine ⟨?_, ?_, ?_, ?_, ?_, ?_, ?_⟩
  · rw [hrptr]; exact h.rptr
  · rw [hwptr]; exact h.wptr
  · rw [hdata]; exact h.slots
  · intro i hi
    unfold slot
    rw [hdata]
    exact h.slot_len i hi
  · intro i hi
    unfold slot
    rw [hdata]
    exact h.contents i hi
  · rw [htx]; exact h.tx
  · rw [hex]; exact h.log

/-- The state of the batch after packet `j` has been stored into slot `j`,
committed (`k = j + 1`) or not (`k = j`). -/
theorem FillInv_store (cfg : Config) (ps : Nat → Packet) (e0 : List Packet) (j k : Nat)
    (w W : World) (h : FillInv cfg ps e0 j 0 w) (hj : j < cfg.DAP_PACKET_COUNT)
    (hk : k ≤ j + 1) (hp : (ps j).length = cfg.DAP_PACKET_SIZE)
    (hdata : W.USBRequestBuffer.data = w.USBRequestBuffer.data.set j (ps j))
    (hwptr : W.USBRequestBuffer.wptr = k)
    (hrptr : W.USBRequestBuffer.rptr = w.USBRequestBuffer.rptr)
    (htx : W.tx_armed = w.tx_armed) (hex : W.executed = w.executed) :
    FillInv cfg ps e0 k 0 W := by
  have hlt : j < w.USBRequestBuffer.data.length := by
    rw [h.slots]; exact hj
  refine ⟨?_, ?_, ?_, ?_, ?_, ?_, ?_⟩
  · rw [hrptr]; exact h.rptr
  · exact hwptr
  · rw [hdata, List.length_set]; exact h.slots
  · intro i hi
    unfold slot
    rw [hdata]
    by_cases hij : j = i
    · subst hij
      rw [getD_set_self _ _ _ hlt]
      exact hp
    · rw [getD_set_ne _ _ _ _ hij]
      exact h.slot_len i hi
  · intro i hi
    unfold slot
    rw [hdata]
    by_cases hij : j = i
    · subst hij
      rw [getD_set_self _ _ _ hlt]
      simp
    · rw [getD_set_ne _ _ _ _ hij]
      exact h.contents i (by omega)
  · rw [htx]; exact h.tx
  · rw [hex]; exact h.log

/-- The state of the batch after the scan has relabelled packet `m`. -/
theorem FillInv_relabel (cfg : Config) (ps : Nat → Packet) (e0 : List Packet) (j m : Nat)
    (w W : World) (h : FillInv cfg ps e0 j m w) (hm : m < j) (hj : j ≤ cfg.DAP_PACKET_COUNT)
    (hdata : W.USBRequestBuffer.data
      = w.USBRequestBuffer.data.set m ((ps m).set 0 cfg.ID_DAP_ExecuteCommands))
    (hwptr : W.USBRequestBuffer.wptr = w.USBRequestBuffer.wptr)
    (hrptr : W.USBRequestBuffer.rptr = w.USBRequestBuffer.rptr)
    (htx : W.tx_armed = w.tx_armed) (hex : W.executed = w.executed) :
    FillInv cfg ps e0 j (m + 1) W := by
  have hlt : m < w.USBRequestBuffer.data.length := by
    rw [h.slots]; omega
  have hpm : slot w.USBRequestBuffer m = ps m := by
    rw [h.contents m hm, if_neg (lt_irrefl m)]
  refine ⟨?_, ?_, ?_, ?_, ?_, ?_, ?_⟩
  · rw [hrptr]; exact h.rptr
  · rw [hwptr]; exact h.wptr
  · rw [hdata, List.length_set]; exact h.slots
  · intro i hi
    unfold slot
    rw [hdata]
    by_cases hij : m = i
    · subst hij
      rw [getD_set_self _ _ _ hlt, List.length_set, ← hpm]
      exact h.slot_len m hi
    · rw [getD_set_ne _ _ _ _ hij]
      exact h.slot_len i hi
  · intro i hi
    unfold slot
    rw [hdata]
    by_cases hij : m = i
    · subst hij
      rw [getD_set_self _ _ _ hlt, if_pos (Nat.lt_succ_self m)]
    · rw [getD_set_ne _ _ _ _ hij]
      have := h.contents i hi
      unfold slot at this
      rw [this]
      by_cases him : i < m
      · rw [if_pos him, if_pos (by omega)]
      · rw [if_neg him, if_neg (by omega)]
  · rw [htx]; exact h.tx
  · rw [hex]; exact h.log

/-- The first `j` packets of the batch are committed one after the other. -/
theorem fill_commits (cfg : Config) (ps : Nat → Packet) (e0 : List Packet) (rh ep : Nat)
    (w1 : World) (hcount : cfg.DAP_PACKET_COUNT ≤ 4294967296)
    (hlen : ∀ i, i < cfg.DAP_PACKET_COUNT → (ps i).length = cfg.DAP_PACKET_SIZE)
    (hep : tu_edpt_dir ep = TUSB_DIR_OUT)
    (h1 : FillInv cfg ps e0 0 0 w1)
    (hrx1 : w1.rx_armed = [⟨rh, ep, Ring.request, 0, cfg.DAP_PACKET_SIZE⟩])
    (hpc1 : w1.pc = Pc.loop ∨ w1.pc = Pc.idle) :
    ∀ j, j + 1 ≤ cfg.DAP_PACKET_COUNT →
      ∃ w, run cfg w1 ((List.range j).map (fun i => Event.out (ps i) cfg.DAP_PACKET_SIZE))
          = some w ∧
        FillInv cfg ps e0 j 0 w ∧
        w.rx_armed = [⟨rh, ep, Ring.request, j, cfg.DAP_PACKET_SIZE⟩] ∧
        (w.pc = Pc.loop ∨ w.pc = Pc.idle) ∧ (0 < j → w.pc = Pc.loop) := by
  intro j
  induction j with
  | zero =>
    intro _
    exact ⟨w1, rfl, h1, hrx1, hpc1, fun h => absurd h (lt_irrefl 0)⟩
  | succ j ih =>
    intro hj
    obtain ⟨w, hrun, hI, hrx, hpc, -⟩ := ih (by omega)
    have hst := step_out_commit cfg w rh ep (ps j) (by rw [hrx, hI.wptr]) hep (hlen j (by omega))
      (hI.slot_len _ (by rw [hI.wptr]; omega)) hI.rptr (by rw [hI.wptr]; omega) hcount
    rw [hI.wptr] at hst
    have hrun2 := run_snoc cfg w1 w _ _ _ hrun hst
    rw [List.range_succ, List.map_append]
    refine ⟨_, hrun2, ?_, ?_, ?_, ?_⟩
    · exact FillInv_store cfg ps e0 j (j + 1) w _ hI (by omega) (le_refl _) (hlen j (by omega))
        rfl rfl rfl rfl rfl
    · rfl
    · left
      rcases hpc with hpc | hpc <;> simp [vTaskResume, hpc]
    · intro _
      rcases hpc with hpc | hpc <;> simp [vTaskResume, hpc]

/-- Two basic blocks of the scan: packet `m` is relabelled and the scan moves
on to packet `m + 1`, or suspends the task if that packet is not committed. -/
theorem scan_two_blocks (cfg : Config) (ps : Nat → Packet) (e0 : List Packet) (m : Nat)
    (w : World) (hcount : cfg.DAP_PACKET_COUNT ≤ 4294967296)
    (hq : ∀ i, i < cfg.DAP_PACKET_COUNT - 1 → (ps i).getD 0 0 = cfg.ID_DAP_QueueCommands)
    (h : FillInv cfg ps e0 (cfg.DAP_PACKET_COUNT - 1) m w)
    (hm : m + 1 ≤ cfg.DAP_PACKET_COUNT - 1) (hpc : w.pc = Pc.scan m)
    (hrx : w.rx_armed = []) (hfull : w.USBRequestBuffer.wasFull = true) :
    ∃ w2, run cfg w [Event.thread, Event.thread] = some w2 ∧
      FillInv cfg ps e0 (cfg.DAP_PACKET_COUNT - 1) (m + 1) w2 ∧
      w2.rx_armed = [] ∧ w2.USBRequestBuffer.wasFull = true ∧
      w2.pc = (if m + 1 = cfg.DAP_PACKET_COUNT - 1 then Pc.wait (m + 1) else Pc.scan (m + 1)) := by
  have hmod : m % cfg.DAP_PACKET_COUNT = m := Nat.mod_eq_of_lt (by omega)
  have hpm : slot w.USBRequestBuffer m = ps m := by
    rw [h.contents m (by omega), if_neg (lt_irrefl m)]
  have hu : u32 (m + 1) = m + 1 := u32_small _ (by omega)
  have hs1 := step_thread_scan_queued cfg w m hpc (by rw [hmod, hpm]; exact hq m (by omega))
  rw [hmod, hpm, hu] at hs1
  have hs2 := step_thread_check cfg
    { w with
      USBRequestBuffer := set_slot w.USBRequestBuffer m
        ((ps m).set 0 cfg.ID_DAP_ExecuteCommands),
      pc := Pc.check (m + 1) } (m + 1) rfl
  refine ⟨_, run_two cfg w _ _ _ _ hs1 hs2, ?_, ?_, ?_, ?_⟩
  · exact FillInv_relabel cfg ps e0 _ m w _ h (by omega) (by omega) rfl rfl rfl rfl rfl
  · exact hrx
  · exact hfull
  · show (if m + 1 = w.USBRequestBuffer.wptr then Pc.wait (m + 1) else Pc.scan (m + 1)) = _
    rw [h.wptr]

/-- The scan relabels the first `m` packets of the batch. -/
theorem scan_phase (cfg : Config) (ps : Nat → Packet) (e0 : List Packet) (wB : World)
    (hcount : cfg.DAP_PACKET_COUNT ≤ 4294967296)
    (hq : ∀ i, i < cfg.DAP_PACKET_COUNT - 1 → (ps i).getD 0 0 = cfg.ID_DAP_QueueCommands)
    (hB : FillInv cfg ps e0 (cfg.DAP_PACKET_COUNT - 1) 0 wB)
    (hrx : wB.rx_armed = []) (hfull : wB.USBRequestBuffer.wasFull = true)
    (hpc : wB.pc = Pc.loop) :
    ∀ m, m + 1 ≤ cfg.DAP_PACKET_COUNT - 1 →
      ∃ w, run cfg wB (List.replicate (2 * m + 1) Event.thread) = some w ∧
        FillInv cfg ps e0 (cfg.DAP_PACKET_COUNT - 1) m w ∧
        w.rx_armed = [] ∧ w.USBRequestBuffer.wasFull = true ∧ w.pc = Pc.scan m := by
  intro m
  induction m with
  | zero =>
    intro h0
    have hs := step_thread_loop cfg wB hpc (by rw [hB.rptr, hB.wptr]; omega)
    rw [hB.rptr] at hs
    refine ⟨_, run_one cfg wB _ _ hs, ?_, hrx, hfull, rfl⟩
    exact FillInv_same cfg ps e0 _ 0 wB _ hB rfl rfl rfl rfl rfl
  | succ m ih =>
    intro hm
    obtain ⟨w, hrun, hI, hrx2, hfull2, hpc2⟩ := ih (by omega)
    obtain ⟨w2, hrun2, hI2, hrx3, hfull3, hpc3⟩ :=
      scan_two_blocks cfg ps e0 m w hcount hq hI (by omega) hpc2 hrx2 hfull2
    rw [if_neg (by omega)] at hpc3
    refine ⟨w2, ?_, hI2, hrx3, hfull3, hpc3⟩
    have : List.replicate (2 * (m + 1) + 1) Event.thread
        = List.replicate (2 * m + 1) Event.thread ++ [Event.thread, Event.thread] := by
      rw [show 2 * (m + 1) + 1 = (2 * m + 1) + 2 by ring, List.replicate_add]
      rfl
    rw [this, run_append, hrun]
    exact hrun2

/-- Once the task is suspended in the batch scan with no transfer armed, only
wake-ups can happen, and they change nothing but the place of the task, which
returns to the same suspension, and the count of wake-ups. -/
theorem stalled_forever (cfg : Config) (w : World) (hrx : w.rx_armed = [])
    (htx : w.tx_armed = []) (evs : List Event) :
    ∀ pc rc, (pc = Pc.wait w.USBRequestBuffer.wptr ∨ pc = Pc.check w.USBRequestBuffer.wptr) →
      ∀ w2, run cfg { w with pc := pc, resume_calls := rc } evs = some w2 →
      ∃ pc2 rc2, w2 = { w with pc := pc2, resume_calls := rc2 } ∧
        (pc2 = Pc.wait w.USBRequestBuffer.wptr ∨ pc2 = Pc.check w.USBRequestBuffer.wptr) := by
  induction evs with
  | nil =>
    intro pc rc hpc w2 hrun
    simp only [run] at hrun
    injection hrun with hrun
    exact ⟨pc, rc, hrun.symm, hpc⟩
  | cons e es ih =>
    intro pc rc hpc w2 hrun
    simp only [run] at hrun
    cases e with
    | out p n => simp [step, hrx] at hrun
    | inn n => simp [step, htx] at hrun
    | wake =>
      simp only [step] at hrun
      rcases hpc with hpc | hpc
      · subst hpc
        exact ih (Pc.check w.USBRequestBuffer.wptr) (rc + 1) (Or.inr rfl) w2 hrun
      · subst hpc
        exact ih (Pc.check w.USBRequestBuffer.wptr) (rc + 1) (Or.inr rfl) w2 hrun
    | thread =>
      rcases hpc with hpc | hpc
      · subst hpc
        simp [step, Pc.suspended] at hrun
      · subst hpc
        simp only [step, Pc.suspended, Bool.false_eq_true, if_false, dap_thread_step,
          if_true] at hrun
        exact ih (Pc.wait w.USBRequestBuffer.wptr) rc (Or.inl rfl) w2 hrun

theorem FillInv_open (cfg : Config) (ps : Nat → Packet) (w0 : World) (rhport : Nat)
    (itf_desc : tusb_desc_interface_t) (edpts : List tusb_desc_endpoint_t) (max_len : Nat)
    (hopen : OpenOk cfg w0 itf_desc edpts max_len) :
    FillInv cfg ps w0.executed 0 0 (dap_edpt_open cfg w0 rhport itf_desc edpts max_len).1 ∧
    (dap_edpt_open cfg w0 rhport itf_desc edpts max_len).1.rx_armed
      = [⟨rhport, (edpts.getD 0 ⟨0⟩).bEndpointAddress, Ring.request, 0,
          cfg.DAP_PACKET_SIZE⟩] ∧
    ((dap_edpt_open cfg w0 rhport itf_desc edpts max_len).1.pc = Pc.loop ∨
      (dap_edpt_open cfg w0 rhport itf_desc edpts max_len).1.pc = Pc.idle) := by
  rw [open_ok cfg w0 rhport itf_desc edpts max_len hopen]
  obtain ⟨h1, h2, h3, h4, h5, h6, h7, h8, h9, h10, h11, h12⟩ := hopen
  refine ⟨⟨rfl, rfl, h10, ?_, ?_, h8, rfl⟩, rfl, h9⟩
  · intro i hi
    show (List.getD w0.USBRequestBuffer.data i []).length = _
    rw [List.getD_eq_getElem _ _ (by rw [h10]; exact hi)]
    exact h11 _ (List.getElem_mem _)
  · intro i hi
    exact absurd hi (Nat.not_lt_zero i)

/-- A wake-up of the task that is suspended in the batch scan with nothing new
committed: the task checks the write cursor and suspends itself again. -/
theorem wake_and_run_stalled (cfg : Config) (fuel : Nat) (w : World) (hfuel : 1 ≤ fuel)
    (hpc : w.pc = Pc.wait w.USBRequestBuffer.wptr) :
    wake_and_run cfg fuel w = { w with resume_calls := w.resume_calls + 1 } := by
  obtain ⟨f, rfl⟩ : ∃ f, fuel = f + 1 := ⟨fuel - 1, by omega⟩
  unfold wake_and_run
  rw [dap_thread_run]
  simp only [vTaskResume, hpc, Pc.suspended]
  simp only [dap_thread_step]
  rw [dap_thread_run_suspended]
  · simp [hpc]
  · simp [Pc.suspended]

/-- C19 (a batch that fills the ring stalls the bridge for good).  From the
state left by a successful `dap_edpt_open`, let `DAP_PACKET_COUNT - 1` packets
with the opcode `ID_DAP_QueueCommands` and one more packet arrive, each in a
completion of `DAP_PACKET_SIZE` bytes, and let `dap_thread` then run
`2 * (DAP_PACKET_COUNT - 1) + 1` basic blocks.  The system reaches a state in
which the task is suspended inside the batch scan with `n = wptr =
DAP_PACKET_COUNT - 1`, `wasFull` is true, no receive is armed, no outbound
transfer is in flight, `rptr` is 0 and the executor has not been called.  From
that state a wake-up followed by a run of the task gives the same state back
(one more wake-up counted), and along every further schedule only wake-ups and
checks of the task can happen: the state stays the same but for the place of
the task, in or next to the same suspension, and the count of wake-ups; so
`rptr` never advances and the executor is never called. -/
theorem full_batch_stalls (cfg : Config) (w0 : World) (rhport : Nat)
    (itf_desc : tusb_desc_interface_t) (edpts : List tusb_desc_endpoint_t) (max_len : Nat)
    (hopen : OpenOk cfg w0 itf_desc edpts max_len)
    (hcount : 2 ≤ cfg.DAP_PACKET_COUNT) (hcount2 : cfg.DAP_PACKET_COUNT ≤ 4294967296)
    (ps : Nat → Packet)
    (hq : ∀ i, i < cfg.DAP_PACKET_COUNT - 1 → (ps i).getD 0 0 = cfg.ID_DAP_QueueCommands)
    (hlen : ∀ i, i < cfg.DAP_PACKET_COUNT → (ps i).length = cfg.DAP_PACKET_SIZE) :
    ∃ w, run cfg (dap_edpt_open cfg w0 rhport itf_desc edpts max_len).1
        (stall_schedule cfg ps) = some w ∧
      w.pc = Pc.wait w.USBRequestBuffer.wptr ∧
      w.USBRequestBuffer.wptr = cfg.DAP_PACKET_COUNT - 1 ∧
      w.USBRequestBuffer.rptr = 0 ∧
      w.USBRequestBuffer.wasFull = true ∧ w.rx_armed = [] ∧ w.tx_armed = [] ∧
      w.executed = w0.executed ∧
      (∀ fuel, 1 ≤ fuel →
        wake_and_run cfg fuel w = { w with resume_calls := w.resume_calls + 1 }) ∧
      (∀ evs w2, run cfg w evs = some w2 →
        w2 = { w with pc := w2.pc, resume_calls := w2.resume_calls } ∧
        (w2.pc = Pc.wait w.USBRequestBuffer.wptr ∨
          w2.pc = Pc.check w.USBRequestBuffer.wptr)) := by
  obtain ⟨hI1, hrx1, hpc1⟩ := FillInv_open cfg ps w0 rhport itf_desc edpts max_len hopen
  have hep : tu_edpt_dir (edpts.getD 0 ⟨0⟩).bEndpointAddress = TUSB_DIR_OUT := hopen.2.2.2.2.1
  generalize (dap_edpt_open cfg w0 rhport itf_desc edpts max_len).1 = w1 at hI1 hrx1 hpc1 ⊢
  generalize (edpts.getD 0 ⟨0⟩).bEndpointAddress = ep at hrx1 hep
  -- the first `DAP_PACKET_COUNT - 1` packets are committed
  obtain ⟨wA, hrunA, hIA, hrxA, -, hpcA⟩ :=
    fill_commits cfg ps w0.executed rhport ep w1 hcount2 hlen hep hI1 hrx1 hpc1
      (cfg.DAP_PACKET_COUNT - 1) (by omega)
  have hpcA2 : wA.pc = Pc.loop := hpcA (by omega)
  -- the last packet finds the ring full
  have hstB := step_out_stall cfg wA rhport ep (ps (cfg.DAP_PACKET_COUNT - 1))
    (by rw [hrxA, hIA.wptr]) hep (hlen _ (by omega))
    (hIA.slot_len _ (by rw [hIA.wptr]; omega)) hIA.rptr (by rw [hIA.wptr]; omega) hcount2
  rw [hIA.wptr] at hstB
  have hrunB := run_snoc cfg w1 wA _ _ _ hrunA hstB
  have hrange : (List.range cfg.DAP_PACKET_COUNT).map
      (fun i => Event.out (ps i) cfg.DAP_PACKET_SIZE)
      = (List.range (cfg.DAP_PACKET_COUNT - 1)).map
          (fun i => Event.out (ps i) cfg.DAP_PACKET_SIZE)
        ++ [Event.out (ps (cfg.DAP_PACKET_COUNT - 1)) cfg.DAP_PACKET_SIZE] := by
    have h1 : cfg.DAP_PACKET_COUNT = (cfg.DAP_PACKET_COUNT - 1).succ := by omega
    conv_lhs => rw [h1, List.range_succ]
    rw [List.map_append]
    rfl
  rw [← hrange] at hrunB
  have hIB := FillInv_store cfg ps w0.executed (cfg.DAP_PACKET_COUNT - 1)
    (cfg.DAP_PACKET_COUNT - 1) wA hIA (by omega) (by omega) (hlen _ (by omega))
    (W := vTaskResume
      { wA with
        USBRequestBuffer :=
          { set_slot wA.USBRequestBuffer (cfg.DAP_PACKET_COUNT - 1)
              (ps (cfg.DAP_PACKET_COUNT - 1)) with wasFull := true },
        rx_armed := [] }) rfl hIA.wptr rfl rfl rfl
  have hpcB : (vTaskResume
      { wA with
        USBRequestBuffer :=
          { set_slot wA.USBRequestBuffer (cfg.DAP_PACKET_COUNT - 1)
              (ps (cfg.DAP_PACKET_COUNT - 1)) with wasFull := true },
        rx_armed := [] }).pc = Pc.loop := by
    simp [vTaskResume, hpcA2]
  generalize hwB : vTaskResume
      { wA with
        USBRequestBuffer :=
          { set_slot wA.USBRequestBuffer (cfg.DAP_PACKET_COUNT - 1)
              (ps (cfg.DAP_PACKET_COUNT - 1)) with wasFull := true },
        rx_armed := [] } = wB at hrunB hIB hpcB
  have hrxB : wB.rx_armed = [] := by rw [← hwB]; rfl
  have hfullB : wB.USBRequestBuffer.wasFull = true := by rw [← hwB]; rfl
  -- the scan relabels all committed packets and suspends the task
  obtain ⟨wC, hrunC, hIC, hrxC, hfullC, hpcC⟩ :=
    scan_phase cfg ps w0.executed wB hcount2 hq hIB hrxB hfullB hpcB
      (cfg.DAP_PACKET_COUNT - 2) (by omega)
  obtain ⟨w, hrunD, hID, hrxD, hfullD, hpcD⟩ :=
    scan_two_blocks cfg ps w0.executed (cfg.DAP_PACKET_COUNT - 2) wC hcount2 hq hIC (by omega)
      hpcC hrxC hfullC
  rw [if_pos (by omega)] at hpcD
  have hpcD2 : w.pc = Pc.wait w.USBRequestBuffer.wptr := by
    rw [hpcD, hID.wptr]
    congr 1
    omega
  have hthreads : List.replicate (2 * (cfg.DAP_PACKET_COUNT - 1) + 1) Event.thread
      = List.replicate (2 * (cfg.DAP_PACKET_COUNT - 2) + 1) Event.thread
        ++ [Event.thread, Event.thread] := by
    rw [show 2 * (cfg.DAP_PACKET_COUNT - 1) + 1 = (2 * (cfg.DAP_PACKET_COUNT - 2) + 1) + 2
      by omega, List.replicate_add]
    rfl
  refine ⟨w, ?_, hpcD2, hID.wptr, hID.rptr, hfullD, hrxD, hID.tx, hID.log, ?_, ?_⟩
  · unfold stall_schedule
    rw [run_append, hrunB, hthreads]
    show run cfg wB _ = some w
    rw [run_append, hrunC]
    exact hrunD
  · intro fuel hfuel
    exact wake_and_run_stalled cfg fuel w hfuel hpcD2
  · intro evs w2 hrun
    obtain ⟨pc2, rc2, heq, hor⟩ :=
      stalled_forever cfg w hrxD hID.tx evs w.pc w.resume_calls (Or.inl hpcD2) w2 hrun
    subst heq
    exact ⟨rfl, hor⟩

/-- The stall on the concrete probe: three `QueueCommands` packets and a
`Connect` packet arrive, the task runs seven basic blocks and is then
suspended in the scan with `n = wptr = 3`; nothing is armed, nothing has been
executed, and two wake-ups with a check of the task in between leave the task
at the check of the same suspension. -/
theorem full_batch_stalls_witness :
    (∃ w, run cfg4 opened4 (stall_schedule cfg4 full_batch4) = some w ∧
      w.pc = Pc.wait w.USBRequestBuffer.wptr ∧ w.USBRequestBuffer.wasFull = true ∧
      w.rx_armed = [] ∧ w.tx_armed = [] ∧ w.executed = []) ∧
    stalled4.pc = Pc.wait 3 ∧
    (run cfg4 stalled4 [Event.wake, Event.thread, Event.wake]).map (fun w => w.pc)
      = some (Pc.check 3) ∧
    run cfg4 stalled4 [Event.wake, Event.thread, Event.thread] = none := by
  obtain ⟨w, h1, h2, -, -, h5, h6, h7, h8, -⟩ :=
    full_batch_stalls cfg4 (boot cfg4) 0 itf4 edpts4 23 (by unfold OpenOk; decide) (by decide)
      (by decide) full_batch4 (by decide) (by decide)
  exact ⟨⟨w, h1, h2, h5, h6, h7, h8⟩, by decide, by decide, by decide⟩

/-! ### The response cursors after `2 ^ 32` unretired responses -/

end Minimaprobe
